import Mathlib

/-!
# Admin console: session store and navigation guard

A shallow embedding of `admin-web/src/stores/auth.js` (the Pinia store
`useAuthStore`: `state`, `isAuthenticated`, `login`, `logout`) and of
`admin-web/src/router/index.js` (the route table and the `router.beforeEach`
guard), followed by the properties proved about them.

The browser and library facilities the two files call are modelled explicitly:

* JavaScript values are `undefined` or a value JSON text can denote (`JS`,
  `JSValue`), with `ToBoolean` (`truthy`), `ToString` (`toText`) and the property
  read `data.key` (`getProp`).
* `localStorage` is a key-value store of strings (`Storage`) with a quota:
  `getItem` and `removeItem` always return, `setItem` throws a
  `QuotaExceededError` when the entry does not fit.
* `JSON.stringify` and `JSON.parse` are ECMAScript built-ins; the store is
  parameterised by them (`JSONCodec`).  `JSON.std` is a concrete codec for compact
  JSON text with integer numbers; it is proved to read back every value it writes
  (`JSONText.parse_stringify`) and is the codec the store is evaluated with on
  concrete inputs.
* `axios.post` is a parameter of `login`: the outcome of the awaited request,
  either the error it was rejected with or the body `response.data`.
* vue-router's matcher is modelled for static paths: child records are joined
  to their parent path, `to.meta` is the merge of the matched records' `meta`,
  an empty-path child is matched before its parent, and a redirect issued by a
  guard starts a new navigation.
-/

namespace AdminWeb

/-! ## JavaScript values -/

/-- JavaScript values that JSON text can denote.  Numbers are kept as integers:
the code only ever tests a value for truthiness. -/
inductive JSValue where
  | null
  | bool (b : Bool)
  | number (n : Int)
  | string (s : String)
  | array (items : List JSValue)
  | object (fields : List (String × JSValue))

instance : Inhabited JSValue := ⟨JSValue.null⟩

namespace JSValue

/-- ECMAScript `ToBoolean`: `null`, `false`, `0` and the empty string are falsy,
every array and every object (also an empty one) is truthy. -/
def truthy : JSValue → Bool
  | null => false
  | bool b => b
  | number n => n != 0
  | string s => s != ""
  | array _ => true
  | object _ => true

/-- The expression `v || null`. -/
def orNull (v : JSValue) : JSValue :=
  if v.truthy then v else null

/-- The value is `null`. -/
def isNull : JSValue → Bool
  | null => true
  | _ => false

/-- The value is an object literal `{...}`. -/
def isObject : JSValue → Bool
  | object _ => true
  | _ => false

end JSValue

/-- What a variable or a property read holds: `undefined`, or a value. -/
inductive JS where
  | undefined
  | value (v : JSValue)

instance : Inhabited JS := ⟨JS.undefined⟩

namespace JS

/-- ECMAScript `ToBoolean`: `undefined` is falsy. -/
def truthy : JS → Bool
  | undefined => false
  | value v => v.truthy

/-- The value is neither `undefined` nor `null`. -/
def present : JS → Bool
  | undefined => false
  | value v => !v.isNull

end JS

/-- The last binding of `key` among the members of an object, `found` when there is none. -/
def lastBinding (key : String) : List (String × JSValue) → JS → JS
  | [], found => found
  | (k, v) :: rest, found => lastBinding key rest (if k = key then JS.value v else found)

/-- The property read `data.key` on a value other than `null`, for a key that no
built-in prototype defines (`token`, `admin`): a member of an object, `undefined`
on an object without it and on every string, number, boolean and array. -/
def getProp (data : JSValue) (key : String) : JS :=
  match data with
  | .object fields => lastBinding key fields JS.undefined
  | _ => JS.undefined

/-- A thrown JavaScript error (a rejected request, a `SyntaxError` of `JSON.parse`). -/
structure JSError where
  name : String
  message : String
deriving DecidableEq, Repr

/-! ## `localStorage` -/

/-- The browser's `localStorage`: string keys bound to string values. -/
abbrev Storage := List (String × String)

namespace Storage

/-- The call `localStorage.getItem(key)`: the stored string, or `null` (`none`). -/
def getItem : Storage → String → Option String
  | [], _ => none
  | (k, v) :: rest, key => if k = key then some v else getItem rest key

/-- The call `localStorage.removeItem(key)`. -/
def removeItem : Storage → String → Storage
  | [], _ => []
  | (k, v) :: rest, key => if k = key then removeItem rest key else (k, v) :: removeItem rest key

/-- The storage with `key` bound to `value`: an existing entry is overwritten in
place, a new one is appended. -/
def put : Storage → String → String → Storage
  | [], key, value => [(key, value)]
  | (k, v) :: rest, key, value =>
    if k = key then (key, value) :: removeItem rest key else (k, v) :: put rest key value

/-- The space the entries take: the lengths of all keys and values. -/
def size : Storage → Nat
  | [] => 0
  | (k, v) :: rest => k.length + v.length + size rest

/-- The call `localStorage.setItem(key, value)` under a quota: the storage with the
entry written, or a `QuotaExceededError` thrown when it would not fit. -/
def setItem (quota : Nat) (s : Storage) (key value : String) : Except JSError Storage :=
  if size (put s key value) ≤ quota then .ok (put s key value)
  else .error ⟨"QuotaExceededError", "The quota has been exceeded."⟩

end Storage

/-! ## `JSON` -/

/-- The ECMAScript built-ins `JSON.stringify` and `JSON.parse`.  `parse` throws a
`SyntaxError` on text that is not JSON. -/
structure JSONCodec where
  stringify : JSValue → String
  parse : String → Except JSError JSValue

/-- The call `JSON.parse(x)` where `x` is what `getItem` returned: `null` is first
converted to the text `null`, which parses to the value `null`. -/
def JSONCodec.parseItem (J : JSONCodec) : Option String → Except JSError JSValue
  | none => .ok JSValue.null
  | some text => J.parse text

/-! ### A concrete codec

`JSON.std` writes compact JSON text the way `JSON.stringify` does (no white space,
members in order) and reads it back with a recursive-descent reader. -/

namespace JSONText

def dquote : Char := Char.ofNat 34
def backslash : Char := Char.ofNat 92
def comma : Char := Char.ofNat 44
def colon : Char := Char.ofNat 58
def minus : Char := Char.ofNat 45
def lbracket : Char := Char.ofNat 91
def rbracket : Char := Char.ofNat 93
def lbrace : Char := Char.ofNat 123
def rbrace : Char := Char.ofNat 125

/-- The characters of a string literal after its opening quote: quotes and
backslashes are escaped, the closing quote is added. -/
def quoteChars : List Char → List Char
  | [] => [dquote]
  | c :: cs =>
    if c = dquote ∨ c = backslash then backslash :: c :: quoteChars cs else c :: quoteChars cs

/-- A string literal. -/
def quote (s : String) : List Char := dquote :: quoteChars s.data

/-- The decimal digit `k` as a character. -/
def digitChar (k : Nat) : Char := Char.ofNat (48 + k)

/-- The decimal digits of `n` in front of `acc`; `fuel` bounds their number. -/
def writeNatAux : Nat → Nat → List Char → List Char
  | 0, _, acc => acc
  | fuel + 1, n, acc =>
    if n / 10 = 0 then digitChar (n % 10) :: acc
    else writeNatAux fuel (n / 10) (digitChar (n % 10) :: acc)

/-- The decimal digits of `n`. -/
def writeNat (n : Nat) : List Char := writeNatAux (n + 1) n []

/-- The decimal text of an integer. -/
def writeInt : Int → List Char
  | .ofNat n => writeNat n
  | .negSucc n => minus :: writeNat (n + 1)

mutual
/-- The JSON text of a value. -/
def write : JSValue → List Char
  | .null => "null".data
  | .bool true => "true".data
  | .bool false => "false".data
  | .number n => writeInt n
  | .string s => quote s
  | .array items => lbracket :: writeItems items
  | .object fields => lbrace :: writeFields fields
/-- The elements of an array after its opening bracket, and the closing bracket. -/
def writeItems : List JSValue → List Char
  | [] => [rbracket]
  | v :: rest => write v ++ writeItemsTail rest
/-- The elements that follow an element, each after a comma, and the closing bracket. -/
def writeItemsTail : List JSValue → List Char
  | [] => [rbracket]
  | v :: rest => comma :: (write v ++ writeItemsTail rest)
/-- The members of an object after its opening brace, and the closing brace. -/
def writeFields : List (String × JSValue) → List Char
  | [] => [rbrace]
  | (k, v) :: rest => quote k ++ colon :: (write v ++ writeFieldsTail rest)
/-- The members that follow a member, each after a comma, and the closing brace. -/
def writeFieldsTail : List (String × JSValue) → List Char
  | [] => [rbrace]
  | (k, v) :: rest => comma :: (quote k ++ colon :: (write v ++ writeFieldsTail rest))
end


/-- Reads a string literal after its opening quote. -/
def readString : List Char → List Char → Option (String × List Char)
  | [], _ => none
  | c :: cs, acc =>
    if c = dquote then some (String.mk acc.reverse, cs)
    else if c = backslash then
      match cs with
      | [] => none
      | d :: ds => if d = dquote ∨ d = backslash then readString ds (d :: acc) else none
    else readString cs (c :: acc)

/-- Reads a run of digits, continuing the number `n`. -/
def readDigits : List Char → Nat → Nat × List Char
  | [], n => (n, [])
  | c :: cs, n => if c.isDigit then readDigits cs (10 * n + (c.toNat - 48)) else (n, c :: cs)

/-- Reads an integer: an optional minus sign and digits. -/
def readNumber : List Char → Option (Int × List Char)
  | [] => none
  | c :: cs =>
    if c = minus then
      match cs with
      | [] => none
      | d :: ds =>
        if d.isDigit then
          let r := readDigits (d :: ds) 0
          some (Int.negOfNat r.1, r.2)
        else none
    else if c.isDigit then
      let r := readDigits (c :: cs) 0
      some (Int.ofNat r.1, r.2)
    else none

mutual
/-- Reads one value from the front of the text; `fuel` bounds the recursion. -/
def read : Nat → List Char → Option (JSValue × List Char)
  | 0, _ => none
  | fuel + 1, cs =>
    match cs with
    | [] => none
    | c :: rest =>
      if c = dquote then (readString rest []).map fun r => (.string r.1, r.2)
      else if c = lbracket then (readItems fuel rest).map fun r => (.array r.1, r.2)
      else if c = lbrace then (readFields fuel rest).map fun r => (.object r.1, r.2)
      else if cs.take 4 = "null".data then some (.null, cs.drop 4)
      else if cs.take 4 = "true".data then some (.bool true, cs.drop 4)
      else if cs.take 5 = "false".data then some (.bool false, cs.drop 5)
      else (readNumber cs).map fun r => (.number r.1, r.2)
/-- Reads the elements of an array after its opening bracket. -/
def readItems : Nat → List Char → Option (List JSValue × List Char)
  | 0, _ => none
  | fuel + 1, cs =>
    match cs with
    | [] => none
    | c :: rest =>
      if c = rbracket then some ([], rest)
      else
        match read fuel cs with
        | none => none
        | some (v, cs1) => (readItemsTail fuel cs1).map fun r => (v :: r.1, r.2)
/-- Reads what follows an element: the closing bracket, or a comma and more. -/
def readItemsTail : Nat → List Char → Option (List JSValue × List Char)
  | 0, _ => none
  | fuel + 1, cs =>
    match cs with
    | [] => none
    | c :: rest =>
      if c = rbracket then some ([], rest)
      else if c = comma then
        match read fuel rest with
        | none => none
        | some (v, cs1) => (readItemsTail fuel cs1).map fun r => (v :: r.1, r.2)
      else none
/-- Reads one member: a key, a colon and a value. -/
def readField : Nat → List Char → Option ((String × JSValue) × List Char)
  | 0, _ => none
  | fuel + 1, cs =>
    match cs with
    | [] => none
    | q :: cs1 =>
      if q = dquote then
        match readString cs1 [] with
        | none => none
        | some (k, cs2) =>
          match cs2 with
          | [] => none
          | c :: cs3 =>
            if c = colon then (read fuel cs3).map fun r => ((k, r.1), r.2)
            else none
      else none
/-- Reads the members of an object after its opening brace. -/
def readFields : Nat → List Char → Option (List (String × JSValue) × List Char)
  | 0, _ => none
  | fuel + 1, cs =>
    match cs with
    | [] => none
    | c :: rest =>
      if c = rbrace then some ([], rest)
      else
        match readField fuel cs with
        | none => none
        | some (f, cs1) => (readFieldsTail fuel cs1).map fun r => (f :: r.1, r.2)
/-- Reads what follows a member: the closing brace, or a comma and more. -/
def readFieldsTail : Nat → List Char → Option (List (String × JSValue) × List Char)
  | 0, _ => none
  | fuel + 1, cs =>
    match cs with
    | [] => none
    | c :: rest =>
      if c = rbrace then some ([], rest)
      else if c = comma then
        match readField fuel rest with
        | none => none
        | some (f, cs1) => (readFieldsTail fuel cs1).map fun r => (f :: r.1, r.2)
      else none
end

/-- Parses a whole text: one value and nothing after it, else a `SyntaxError`. -/
def parse (text : String) : Except JSError JSValue :=
  match read (2 * text.length + 1) text.data with
  | some (v, []) => .ok v
  | _ => .error ⟨"SyntaxError", "Unexpected token in JSON"⟩

/-- The text of a value as a string. -/
def stringify (v : JSValue) : String := String.mk (write v)

/-- The text that follows a number must not go on with a digit. -/
def noDigitHead : List Char → Prop
  | [] => True
  | c :: _ => c.isDigit = false

/-- The number a run of digit characters denotes, continuing from `acc`. -/
def digitsValue (ds : List Char) (acc : Nat) : Nat :=
  ds.foldl (fun a c => 10 * a + (c.toNat - 48)) acc

mutual
/-- Fuel that suffices to read back the text of a value. -/
def need : JSValue → Nat
  | .null => 1
  | .bool _ => 1
  | .number _ => 1
  | .string _ => 1
  | .array items => 1 + needItems items
  | .object fields => 1 + needFields fields
/-- Fuel that suffices to read back the elements of an array. -/
def needItems : List JSValue → Nat
  | [] => 1
  | v :: rest => 1 + need v + needItems rest
/-- Fuel that suffices to read back the members of an object. -/
def needFields : List (String × JSValue) → Nat
  | [] => 1
  | (_, v) :: rest => 2 + need v + needFields rest
end

end JSONText

/-- The concrete codec. -/
def JSON.std : JSONCodec := ⟨JSONText.stringify, JSONText.parse⟩

/-! ## `ToString` -/

mutual
/-- ECMAScript `ToString` of a value: a string is itself, an array is its elements
joined by commas, an object is the text `[object Object]`. -/
def JSValue.toText : JSValue → String
  | .null => "null"
  | .bool true => "true"
  | .bool false => "false"
  | .number n => String.mk (JSONText.writeInt n)
  | .string s => s
  | .array items => JSValue.joinText items
  | .object _ => "[object Object]"
/-- The elements of an array joined by commas (`Array.prototype.join`): `null` is
written as the empty string. -/
def JSValue.joinText : List JSValue → String
  | [] => ""
  | .null :: [] => ""
  | v :: [] => JSValue.toText v
  | .null :: rest => "," ++ JSValue.joinText rest
  | v :: rest => JSValue.toText v ++ "," ++ JSValue.joinText rest
end

/-- ECMAScript `ToString`, the conversion `setItem` applies to the value it is given. -/
def JS.toText : JS → String
  | .undefined => "undefined"
  | .value v => v.toText

/-- The text `setItem(key, JSON.stringify(x))` stores: the serialisation of a value;
`JSON.stringify(undefined)` is `undefined`, which `setItem` converts to text. -/
def JSONCodec.stringifyText (J : JSONCodec) : JS → String
  | .undefined => "undefined"
  | .value v => J.stringify v

/-! ## The session store (`stores/auth.js`) -/

def API_URL : String := "http://localhost:8080/api"

/-- The reactive state of `useAuthStore`: the values of `token` and `admin`. -/
structure AuthState where
  token : JS
  admin : JS

/-- The expression `localStorage.getItem('admin_token') || null`: a missing entry
and the empty string both give `null`. -/
def tokenOrNull : Option String → JSValue
  | none => JSValue.null
  | some t => if t = "" then JSValue.null else JSValue.string t

/-- The state initialiser `state: () => ({ token: ..., admin: ... })`.  It throws
when `JSON.parse` throws. -/
def state (J : JSONCodec) (localStorage : Storage) : Except JSError AuthState :=
  let token := tokenOrNull (localStorage.getItem "admin_token")
  match J.parseItem (localStorage.getItem "admin_user") with
  | .ok admin => .ok { token := JS.value token, admin := JS.value admin.orNull }
  | .error e => .error e

/-- The getter `isAuthenticated: (state) => !!state.token`. -/
def isAuthenticated (state : AuthState) : Bool :=
  state.token.truthy

/-- What a running page holds: the store instance, `localStorage` with its quota,
and the console (the lines `console.error` wrote). -/
structure Page where
  store : AuthState
  localStorage : Storage
  quota : Nat
  console : List (String × JSError)

/-- The call `axios.post(url, { username, password })` once awaited: the body
`response.data`, or the error the request was rejected with. -/
abbrev Endpoint := String → String → String → Except JSError JS

/-- The `TypeError` of a property read on `null` or `undefined`. -/
def TypeError_token : JSError :=
  ⟨"TypeError", "Cannot read properties of null or undefined (reading token)"⟩

/-- The `catch` block of `login`: the error is logged and thrown again. -/
def loginFailed (error : JSError) (page : Page) : Except JSError Bool × Page :=
  (.error error, { page with console := page.console ++ [("Login failed:", error)] })

/-- The action `login(username, password)`: the value returned or the error
thrown, and the page afterwards.  Inside the `try`, the request, the read
`response.data.token` and each `setItem` may throw; what was assigned or written
before stays. -/
def login (J : JSONCodec) (axios_post : Endpoint) (username password : String)
    (page : Page) : Except JSError Bool × Page :=
  match axios_post (API_URL ++ "/auth/admin/login") username password with
  | .error error => loginFailed error page
  | .ok .undefined => loginFailed TypeError_token page
  | .ok (.value data) =>
    if data.isNull = true then loginFailed TypeError_token page
    else
      let token := getProp data "token"
      let admin := getProp data "admin"
      let page1 := { page with store := { token := token, admin := admin } }
      match page.localStorage.setItem page.quota "admin_token" token.toText with
      | .error error => loginFailed error page1
      | .ok storage1 =>
        match storage1.setItem page.quota "admin_user" (J.stringifyText admin) with
        | .error error => loginFailed error { page1 with localStorage := storage1 }
        | .ok storage2 => (.ok true, { page1 with localStorage := storage2 })

/-- The action `logout()`. -/
def logout (page : Page) : Page :=
  { page with
    store := { token := JS.value JSValue.null, admin := JS.value JSValue.null }
    localStorage := (page.localStorage.removeItem "admin_token").removeItem "admin_user" }

/-- Token and admin are both present (neither `null` nor `undefined`) or both absent. -/
def bothOrNeither (s : AuthState) : Prop :=
  s.token.present = s.admin.present

instance (s : AuthState) : Decidable (bothOrNeither s) := by
  unfold bothOrNeither; infer_instance

/-- One user action on the store; a login carries what the endpoint answered. -/
inductive Action where
  | login (username password : String) (outcome : Except JSError JS)
  | logout

/-- The page after one action (an error thrown by `login` is left to the caller). -/
def Action.run (J : JSONCodec) (page : Page) : Action → Page
  | .login username password outcome =>
    (AdminWeb.login J (fun _ _ _ => outcome) username password page).2
  | .logout => AdminWeb.logout page

/-- The page after a sequence of actions. -/
def runActions (J : JSONCodec) (page : Page) (actions : List Action) : Page :=
  actions.foldl (Action.run J) page

/-! ## The router (`router/index.js`) -/

/-- The `meta` of a route record: `requiresAuth` is absent or a boolean. -/
structure RouteMeta where
  requiresAuth : Option Bool
deriving DecidableEq, Repr

/-- A route record of the table: path, name, the view it loads, `meta`, children. -/
inductive RouteRecord where
  | mk (path name component : String) (meta : RouteMeta) (children : List RouteRecord)

/-- The `routes` option given to `createRouter`. -/
def routes : List RouteRecord :=
  [ .mk "/login" "login" "../views/Login.vue" ⟨none⟩ [],
    .mk "/" "home" "../views/Home.vue" ⟨some true⟩
      [ .mk "" "dashboard" "../views/Dashboard.vue" ⟨none⟩ [],
        .mk "products" "products" "../views/products/ProductList.vue" ⟨none⟩ [],
        .mk "orders" "orders" "../views/orders/OrderList.vue" ⟨none⟩ [],
        .mk "chat" "chat" "../views/chat/ChatWindow.vue" ⟨none⟩ [],
        .mk "notifications" "notifications"
          "../views/notifications/NotificationList.vue" ⟨none⟩ [] ] ]

/-- A resolved location, the `to` of a guard: `meta` is the merged `meta` of the
matched records, `matched` lists their views from the outermost in. -/
structure RouteLocation where
  path : String
  name : Option String
  meta : RouteMeta
  matched : List String
deriving DecidableEq, Repr

/-- The full path of a child record: a relative path is appended to the parent path,
with a connecting slash unless the parent path ends in one or the child path is empty. -/
def joinPath (parent : Option String) (path : String) : String :=
  match parent with
  | none => path
  | some p =>
    if path.front = Char.ofNat 47 then path
    else if path = "" then p
    else if p.back = Char.ofNat 47 then p ++ path
    else p ++ "/" ++ path

/-- The merge of a parent `meta` and a child `meta`: the child key wins when present. -/
def mergeMeta (parent child : RouteMeta) : RouteMeta :=
  ⟨match child.requiresAuth with
    | some b => some b
    | none => parent.requiresAuth⟩

mutual
/-- The matchers a record contributes: those of its children first, then its own. -/
def matchers (parent : Option String) (parentMeta : RouteMeta) (parentMatched : List String) :
    RouteRecord → List RouteLocation
  | .mk path name component meta children =>
    let full := joinPath parent path
    let merged := mergeMeta parentMeta meta
    let matched := parentMatched ++ [component]
    matchersOf (some full) merged matched children ++
      [{ path := full, name := some name, meta := merged, matched := matched }]
/-- The matchers of a list of sibling records. -/
def matchersOf (parent : Option String) (parentMeta : RouteMeta) (parentMatched : List String) :
    List RouteRecord → List RouteLocation
  | [] => []
  | r :: rs =>
    matchers parent parentMeta parentMatched r ++ matchersOf parent parentMeta parentMatched rs
end

/-- Every location the router can resolve to. -/
def router_matchers : List RouteLocation := matchersOf none ⟨none⟩ [] routes

/-- Resolution `router.resolve(path)` of a path: the first matcher with that path; a
path no record matches resolves to a location with nothing matched and empty `meta`.
Paths are compared exactly: the router's tolerance for a trailing slash and for
letter case is not modelled. -/
def resolve (path : String) : RouteLocation :=
  match router_matchers.find? (fun l => l.path = path) with
  | some l => l
  | none => { path := path, name := none, meta := ⟨none⟩, matched := [] }

/-- Resolution `router.resolve({ name })` of a named route. -/
def resolveName (name : String) : Option RouteLocation :=
  router_matchers.find? (fun l => l.name = some name)

/-- What a guard tells the router: `next()` or `next(path)`. -/
inductive GuardResult where
  | next
  | redirect (path : String)
deriving DecidableEq, Repr

/-- The guard registered with `router.beforeEach((to, from, next) => ...)`;
`authStore` is the state of the store `useAuthStore()` returns, `target` is `to`. -/
def beforeEach (authStore : AuthState) (target _from : RouteLocation) : GuardResult :=
  if target.meta.requiresAuth.getD false && !isAuthenticated authStore then
    .redirect "/login"
  else
    .next

/-- A navigation: the guard runs on the target, and a redirect starts a new
navigation to the resolved path.  The result is the location reached and the number
of redirects taken; `fuel` bounds the number of guard runs. -/
def navigate (authStore : AuthState) (current : RouteLocation) :
    Nat → RouteLocation → Option (RouteLocation × Nat)
  | 0, _ => none
  | fuel + 1, target =>
    match beforeEach authStore target current with
    | .next => some (target, 0)
    | .redirect path =>
      (navigate authStore current fuel (resolve path)).map fun r => (r.1, r.2 + 1)

/-- The named routes behind the `/` record: the record itself and its children. -/
def protectedNames : List String :=
  ["home", "dashboard", "products", "orders", "chat", "notifications"]

/-- The location the page starts from before its first navigation. -/
def START_LOCATION : RouteLocation :=
  { path := "/", name := none, meta := ⟨none⟩, matched := [] }

/-! ## Facts about `localStorage` -/

namespace Storage

theorem getItem_removeItem_self (s : Storage) (key : String) :
    getItem (removeItem s key) key = none := by
  induction s with
  | nil => rfl
  | cons e rest ih =>
    obtain ⟨k, v⟩ := e
    by_cases h : k = key
    · rw [removeItem, if_pos h]; exact ih
    · rw [removeItem, if_neg h, getItem, if_neg h]; exact ih

theorem getItem_removeItem_ne (s : Storage) (key other : String) (hne : other ≠ key) :
    getItem (removeItem s key) other = getItem s other := by
  induction s with
  | nil => rfl
  | cons e rest ih =>
    obtain ⟨k, v⟩ := e
    by_cases h : k = key
    · have hk : k ≠ other := fun h2 => hne (h2 ▸ h)
      rw [removeItem, if_pos h, getItem, if_neg hk]; exact ih
    · rw [removeItem, if_neg h]
      by_cases h2 : k = other
      · rw [getItem, if_pos h2, getItem, if_pos h2]
      · rw [getItem, if_neg h2, getItem, if_neg h2]; exact ih

theorem getItem_put_self (s : Storage) (key value : String) :
    getItem (put s key value) key = some value := by
  induction s with
  | nil => rw [put, getItem, if_pos rfl]
  | cons e rest ih =>
    obtain ⟨k, v⟩ := e
    by_cases h : k = key
    · rw [put, if_pos h, getItem, if_pos rfl]
    · rw [put, if_neg h, getItem, if_neg h]; exact ih

theorem getItem_put_ne (s : Storage) (key value other : String) (hne : other ≠ key) :
    getItem (put s key value) other = getItem s other := by
  have hk2 : key ≠ other := fun h2 => hne h2.symm
  induction s with
  | nil => simp only [put, getItem, if_neg hk2]
  | cons e rest ih =>
    obtain ⟨k, v⟩ := e
    by_cases h : k = key
    · have hk : k ≠ other := fun h2 => hne (h2 ▸ h)
      rw [put, if_pos h, getItem, if_neg hk2, getItem, if_neg hk]
      exact getItem_removeItem_ne rest key other hne
    · rw [put, if_neg h]
      by_cases h2 : k = other
      · rw [getItem, if_pos h2, getItem, if_pos h2]
      · rw [getItem, if_neg h2, getItem, if_neg h2]; exact ih

theorem removeItem_removeItem_self (s : Storage) (key : String) :
    removeItem (removeItem s key) key = removeItem s key := by
  induction s with
  | nil => rfl
  | cons e rest ih =>
    obtain ⟨k, v⟩ := e
    by_cases h : k = key
    · rw [removeItem, if_pos h]; exact ih
    · rw [removeItem, if_neg h, removeItem, if_neg h, ih]

theorem removeItem_comm (s : Storage) (a b : String) :
    removeItem (removeItem s a) b = removeItem (removeItem s b) a := by
  induction s with
  | nil => rfl
  | cons e rest ih =>
    obtain ⟨k, v⟩ := e
    by_cases ha : k = a
    · by_cases hb : k = b
      · rw [removeItem, if_pos ha, removeItem, if_pos hb]; exact ih
      · rw [removeItem, if_pos ha, removeItem, if_neg hb, removeItem, if_pos ha]; exact ih
    · by_cases hb : k = b
      · rw [removeItem, if_neg ha, removeItem, if_pos hb, removeItem, if_pos hb]; exact ih
      · rw [removeItem, if_neg ha, removeItem, if_neg hb, removeItem, if_neg hb,
          removeItem, if_neg ha, ih]

end Storage

/-! ## Facts about the concrete codec -/

namespace JSONText

theorem digitChar_spec : ∀ k, k < 10 →
    (digitChar k).isDigit = true ∧ (digitChar k).toNat - 48 = k := by
  decide

theorem readDigits_append (ds rest : List Char) (acc : Nat)
    (hds : ∀ c ∈ ds, c.isDigit = true) (hrest : noDigitHead rest) :
    readDigits (ds ++ rest) acc = (digitsValue ds acc, rest) := by
  induction ds generalizing acc with
  | nil =>
    cases rest with
    | nil => rfl
    | cons c cs =>
      have hc : c.isDigit = false := hrest
      simp [readDigits, hc, digitsValue]
  | cons d ds ih =>
    have hd : d.isDigit = true := hds d (List.mem_cons_self _ _)
    have := ih (10 * acc + (d.toNat - 48)) (fun c hc => hds c (List.mem_cons_of_mem _ hc))
    simp [readDigits, hd, this, digitsValue]

theorem writeNatAux_spec (fuel : Nat) : ∀ (n : Nat) (acc : List Char), n < fuel →
    ∃ d ds, writeNatAux fuel n acc = (d :: ds) ++ acc ∧
      (∀ c ∈ d :: ds, c.isDigit = true) ∧ digitsValue (d :: ds) 0 = n := by
  induction fuel with
  | zero => intro n acc h; exact absurd h (Nat.not_lt_zero n)
  | succ fuel ih =>
    intro n acc h
    have hmod := digitChar_spec (n % 10) (Nat.mod_lt n (by decide))
    by_cases h0 : n / 10 = 0
    · refine ⟨digitChar (n % 10), [], ?_, ?_, ?_⟩
      · simp [writeNatAux, h0]
      · intro c hc
        simp at hc
        rw [hc]; exact hmod.1
      · simp only [digitsValue, List.foldl, hmod.2]
        omega
    · have hlt : n / 10 < fuel := by omega
      obtain ⟨d, ds, heq, hdig, hval⟩ := ih (n / 10) (digitChar (n % 10) :: acc) hlt
      refine ⟨d, ds ++ [digitChar (n % 10)], ?_, ?_, ?_⟩
      · simp [writeNatAux, h0, heq]
      · intro c hc
        simp only [List.mem_cons, List.mem_append, List.mem_singleton, List.mem_nil_iff,
          or_false] at hc
        rcases hc with hc | hc | hc
        · exact hdig c (by rw [hc]; exact List.mem_cons_self _ _)
        · exact hdig c (List.mem_cons_of_mem _ hc)
        · rw [hc]; exact hmod.1
      · have : digitsValue (d :: (ds ++ [digitChar (n % 10)])) 0 =
            10 * digitsValue (d :: ds) 0 + ((digitChar (n % 10)).toNat - 48) := by
          simp [digitsValue, List.foldl_append]
        rw [this, hval, hmod.2]
        omega

theorem writeNat_spec (n : Nat) :
    ∃ d ds, writeNat n = d :: ds ∧
      (∀ c ∈ d :: ds, c.isDigit = true) ∧ digitsValue (d :: ds) 0 = n := by
  obtain ⟨d, ds, heq, hdig, hval⟩ := writeNatAux_spec (n + 1) n [] (Nat.lt_succ_self n)
  exact ⟨d, ds, by rw [writeNat, heq, List.append_nil], hdig, hval⟩

theorem readNumber_writeInt (i : Int) (rest : List Char) (hrest : noDigitHead rest) :
    readNumber (writeInt i ++ rest) = some (i, rest) := by
  cases i with
  | ofNat n =>
    obtain ⟨d, ds, heq, hdig, hval⟩ := writeNat_spec n
    have hd : d.isDigit = true := hdig d (List.mem_cons_self _ _)
    have hm : d ≠ minus := by
      intro h; rw [h] at hd; exact absurd hd (by decide)
    have hr := readDigits_append (d :: ds) rest 0 hdig hrest
    show readNumber (writeNat n ++ rest) = _
    rw [heq]
    show readNumber (d :: (ds ++ rest)) = _
    simp only [readNumber, if_neg hm, hd, if_true]
    have hr2 : readDigits (d :: (ds ++ rest)) 0 = (digitsValue (d :: ds) 0, rest) := hr
    rw [hr2, hval]
  | negSucc n =>
    obtain ⟨d, ds, heq, hdig, hval⟩ := writeNat_spec (n + 1)
    have hd : d.isDigit = true := hdig d (List.mem_cons_self _ _)
    have hr : readDigits (d :: (ds ++ rest)) 0 = (digitsValue (d :: ds) 0, rest) :=
      readDigits_append (d :: ds) rest 0 hdig hrest
    show readNumber (minus :: (writeNat (n + 1) ++ rest)) = _
    rw [heq]
    show readNumber (minus :: d :: (ds ++ rest)) = _
    simp only [readNumber, if_true, hd]
    rw [hr, hval]
    rfl

theorem readString_cons (c : Char) (cs acc : List Char) :
    readString (c :: cs) acc =
      if c = dquote then some (String.mk acc.reverse, cs)
      else if c = backslash then
        match cs with
        | [] => none
        | d :: ds => if d = dquote ∨ d = backslash then readString ds (d :: acc) else none
      else readString cs (c :: acc) := by
  rw [readString.eq_def]

theorem readString_quoteChars (cs rest acc : List Char) :
    readString (quoteChars cs ++ rest) acc = some (String.mk (acc.reverse ++ cs), rest) := by
  induction cs generalizing acc with
  | nil =>
    show readString (dquote :: rest) acc = _
    rw [readString_cons, if_pos rfl, List.append_nil]
  | cons c cs ih =>
    by_cases hc : c = dquote ∨ c = backslash
    · have hb : backslash ≠ dquote := by decide
      have hq : quoteChars (c :: cs) ++ rest = backslash :: c :: (quoteChars cs ++ rest) := by
        simp [quoteChars, hc]
      rw [hq, readString_cons, if_neg hb, if_pos rfl]
      show (if c = dquote ∨ c = backslash then readString (quoteChars cs ++ rest) (c :: acc)
        else none) = _
      rw [if_pos hc, ih (c :: acc)]
      simp
    · have h1 : c ≠ dquote := fun h => hc (Or.inl h)
      have h2 : c ≠ backslash := fun h => hc (Or.inr h)
      have hq : quoteChars (c :: cs) ++ rest = c :: (quoteChars cs ++ rest) := by
        simp [quoteChars, hc]
      rw [hq, readString_cons, if_neg h1, if_neg h2, ih (c :: acc)]
      simp

theorem read_succ (fuel : Nat) (c : Char) (rest : List Char) :
    read (fuel + 1) (c :: rest) =
      if c = dquote then (readString rest []).map fun r => (.string r.1, r.2)
      else if c = lbracket then (readItems fuel rest).map fun r => (.array r.1, r.2)
      else if c = lbrace then (readFields fuel rest).map fun r => (.object r.1, r.2)
      else if (c :: rest).take 4 = "null".data then some (.null, (c :: rest).drop 4)
      else if (c :: rest).take 4 = "true".data then some (.bool true, (c :: rest).drop 4)
      else if (c :: rest).take 5 = "false".data then some (.bool false, (c :: rest).drop 5)
      else (readNumber (c :: rest)).map fun r => (.number r.1, r.2) := by
  rw [read]

theorem readItems_succ (fuel : Nat) (c : Char) (rest : List Char) :
    readItems (fuel + 1) (c :: rest) =
      if c = rbracket then some ([], rest)
      else
        match read fuel (c :: rest) with
        | none => none
        | some (v, cs1) => (readItemsTail fuel cs1).map fun r => (v :: r.1, r.2) := by
  rw [readItems]

theorem readItemsTail_succ (fuel : Nat) (c : Char) (rest : List Char) :
    readItemsTail (fuel + 1) (c :: rest) =
      if c = rbracket then some ([], rest)
      else if c = comma then
        match read fuel rest with
        | none => none
        | some (v, cs1) => (readItemsTail fuel cs1).map fun r => (v :: r.1, r.2)
      else none := by
  rw [readItemsTail]

theorem readField_succ (fuel : Nat) (q : Char) (cs1 : List Char) :
    readField (fuel + 1) (q :: cs1) =
      if q = dquote then
        match readString cs1 [] with
        | none => none
        | some (k, cs2) =>
          match cs2 with
          | [] => none
          | c :: cs3 =>
            if c = colon then (read fuel cs3).map fun r => ((k, r.1), r.2)
            else none
      else none := by
  rw [readField]

theorem readFields_succ (fuel : Nat) (c : Char) (rest : List Char) :
    readFields (fuel + 1) (c :: rest) =
      if c = rbrace then some ([], rest)
      else
        match readField fuel (c :: rest) with
        | none => none
        | some (f, cs1) => (readFieldsTail fuel cs1).map fun r => (f :: r.1, r.2) := by
  rw [readFields]

theorem readFieldsTail_succ (fuel : Nat) (c : Char) (rest : List Char) :
    readFieldsTail (fuel + 1) (c :: rest) =
      if c = rbrace then some ([], rest)
      else if c = comma then
        match readField fuel rest with
        | none => none
        | some (f, cs1) => (readFieldsTail fuel cs1).map fun r => (f :: r.1, r.2)
      else none := by
  rw [readFieldsTail]

theorem writeInt_head (i : Int) :
    ∃ c tl, writeInt i = c :: tl ∧ (c = minus ∨ c.isDigit = true) := by
  cases i with
  | ofNat n =>
    obtain ⟨d, ds, heq, hdig, _⟩ := writeNat_spec n
    exact ⟨d, ds, heq, Or.inr (hdig d (List.mem_cons_self _ _))⟩
  | negSucc n => exact ⟨minus, writeNat (n + 1), rfl, Or.inl rfl⟩

theorem read_number_head (fuel : Nat) (c : Char) (rest : List Char)
    (hc : c = minus ∨ c.isDigit = true) :
    read (fuel + 1) (c :: rest) =
      (readNumber (c :: rest)).map fun r => (.number r.1, r.2) := by
  have hne : ∀ d : Char, d ≠ minus → d.isDigit = false → c ≠ d := by
    intro d hd1 hd2 h
    rcases hc with hc | hc
    · exact hd1 (h ▸ hc)
    · rw [h, hd2] at hc; exact Bool.noConfusion hc
  have h1 : c ≠ dquote := hne _ (by decide) (by decide)
  have h2 : c ≠ lbracket := hne _ (by decide) (by decide)
  have h3 : c ≠ lbrace := hne _ (by decide) (by decide)
  have h4 : ¬ (c :: rest).take 4 = "null".data := by
    intro h
    have : c = Char.ofNat 110 := (List.cons.inj h).1
    exact hne _ (by decide) (by decide) this
  have h5 : ¬ (c :: rest).take 4 = "true".data := by
    intro h
    have : c = Char.ofNat 116 := (List.cons.inj h).1
    exact hne _ (by decide) (by decide) this
  have h6 : ¬ (c :: rest).take 5 = "false".data := by
    intro h
    have : c = Char.ofNat 102 := (List.cons.inj h).1
    exact hne _ (by decide) (by decide) this
  rw [read_succ, if_neg h1, if_neg h2, if_neg h3, if_neg h4, if_neg h5, if_neg h6]

theorem write_head (v : JSValue) : ∃ c tl, write v = c :: tl ∧ c ≠ rbracket := by
  cases v with
  | null => exact ⟨_, _, rfl, by decide⟩
  | bool b => cases b <;> exact ⟨_, _, rfl, by decide⟩
  | number n =>
    obtain ⟨c, tl, heq, hc⟩ := writeInt_head n
    refine ⟨c, tl, by rw [write]; exact heq, ?_⟩
    intro h
    rcases hc with hc | hc
    · rw [hc] at h; exact absurd h (by decide)
    · rw [h] at hc; exact absurd hc (by decide)
  | string s => exact ⟨dquote, quoteChars s.data, by rw [write]; rfl, by decide⟩
  | array items => exact ⟨lbracket, writeItems items, by rw [write], by decide⟩
  | object fields => exact ⟨lbrace, writeFields fields, by rw [write], by decide⟩

theorem noDigitHead_itemsTail (items : List JSValue) (rest : List Char) :
    noDigitHead (writeItemsTail items ++ rest) := by
  cases items with
  | nil => rw [writeItemsTail]; show rbracket.isDigit = false; decide
  | cons v tl => rw [writeItemsTail]; show comma.isDigit = false; decide

theorem noDigitHead_fieldsTail (fields : List (String × JSValue)) (rest : List Char) :
    noDigitHead (writeFieldsTail fields ++ rest) := by
  cases fields with
  | nil => rw [writeFieldsTail]; show rbrace.isDigit = false; decide
  | cons f tl =>
    obtain ⟨k, v⟩ := f
    rw [writeFieldsTail]; show comma.isDigit = false; decide

theorem readField_write (fuel : Nat) (k : String) (v : JSValue) (tail : List Char)
    (hread : read fuel (write v ++ tail) = some (v, tail)) :
    readField (fuel + 1) (quote k ++ colon :: (write v ++ tail)) = some ((k, v), tail) := by
  show readField (fuel + 1) (dquote :: (quoteChars k.data ++ colon :: (write v ++ tail))) = _
  rw [readField_succ, if_pos rfl, readString_quoteChars]
  show (if colon = colon then (read fuel (write v ++ tail)).map fun r => ((k, r.1), r.2)
    else none) = _
  rw [if_pos rfl, hread]
  rfl

mutual
theorem read_write : ∀ (v : JSValue) (fuel : Nat) (rest : List Char),
    need v ≤ fuel → noDigitHead rest → read fuel (write v ++ rest) = some (v, rest)
  | .null, fuel, rest, hf, _ => by
    obtain ⟨f, rfl⟩ : ∃ f, fuel = f + 1 := ⟨fuel - 1, by rw [need] at hf; omega⟩
    rfl
  | .bool true, fuel, rest, hf, _ => by
    obtain ⟨f, rfl⟩ : ∃ f, fuel = f + 1 := ⟨fuel - 1, by rw [need] at hf; omega⟩
    rfl
  | .bool false, fuel, rest, hf, _ => by
    obtain ⟨f, rfl⟩ : ∃ f, fuel = f + 1 := ⟨fuel - 1, by rw [need] at hf; omega⟩
    rfl
  | .number n, fuel, rest, hf, hrest => by
    obtain ⟨f, rfl⟩ : ∃ f, fuel = f + 1 := ⟨fuel - 1, by rw [need] at hf; omega⟩
    obtain ⟨c, tl, heq, hc⟩ := writeInt_head n
    have hr := readNumber_writeInt n rest hrest
    rw [write]
    rw [heq] at hr ⊢
    rw [List.cons_append] at hr ⊢
    rw [read_number_head f c (tl ++ rest) hc, hr]
    rfl
  | .string s, fuel, rest, hf, _ => by
    obtain ⟨f, rfl⟩ : ∃ f, fuel = f + 1 := ⟨fuel - 1, by rw [need] at hf; omega⟩
    rw [write]
    show read (f + 1) (dquote :: (quoteChars s.data ++ rest)) = _
    rw [read_succ, if_pos rfl, readString_quoteChars]
    rfl
  | .array items, fuel, rest, hf, _ => by
    rw [need] at hf
    obtain ⟨f, rfl⟩ : ∃ f, fuel = f + 1 := ⟨fuel - 1, by omega⟩
    have ih := readItems_write items f rest (by omega)
    rw [write, List.cons_append, read_succ, if_neg (by decide), if_pos rfl, ih]
    rfl
  | .object fields, fuel, rest, hf, _ => by
    rw [need] at hf
    obtain ⟨f, rfl⟩ : ∃ f, fuel = f + 1 := ⟨fuel - 1, by omega⟩
    have ih := readFields_write fields f rest (by omega)
    rw [write, List.cons_append, read_succ, if_neg (by decide), if_neg (by decide),
      if_pos rfl, ih]
    rfl
theorem readItems_write : ∀ (items : List JSValue) (fuel : Nat) (rest : List Char),
    needItems items ≤ fuel → readItems fuel (writeItems items ++ rest) = some (items, rest)
  | [], fuel, rest, hf => by
    obtain ⟨f, rfl⟩ : ∃ f, fuel = f + 1 := ⟨fuel - 1, by rw [needItems] at hf; omega⟩
    rw [writeItems]
    show readItems (f + 1) (rbracket :: rest) = _
    rw [readItems_succ, if_pos rfl]
  | v :: tl, fuel, rest, hf => by
    rw [needItems] at hf
    obtain ⟨f, rfl⟩ : ∃ f, fuel = f + 1 := ⟨fuel - 1, by omega⟩
    have ih1 := read_write v f (writeItemsTail tl ++ rest) (by omega)
      (noDigitHead_itemsTail tl rest)
    have ih2 := readItemsTail_write tl f rest (by omega)
    obtain ⟨c, w, heq, hc⟩ := write_head v
    rw [writeItems, List.append_assoc]
    rw [heq, List.cons_append] at ih1 ⊢
    rw [readItems_succ, if_neg hc, ih1]
    show (readItemsTail f (writeItemsTail tl ++ rest)).map (fun r => (v :: r.1, r.2)) = _
    rw [ih2]
    rfl
theorem readItemsTail_write : ∀ (items : List JSValue) (fuel : Nat) (rest : List Char),
    needItems items ≤ fuel →
      readItemsTail fuel (writeItemsTail items ++ rest) = some (items, rest)
  | [], fuel, rest, hf => by
    obtain ⟨f, rfl⟩ : ∃ f, fuel = f + 1 := ⟨fuel - 1, by rw [needItems] at hf; omega⟩
    rw [writeItemsTail]
    show readItemsTail (f + 1) (rbracket :: rest) = _
    rw [readItemsTail_succ, if_pos rfl]
  | v :: tl, fuel, rest, hf => by
    rw [needItems] at hf
    obtain ⟨f, rfl⟩ : ∃ f, fuel = f + 1 := ⟨fuel - 1, by omega⟩
    have ih1 := read_write v f (writeItemsTail tl ++ rest) (by omega)
      (noDigitHead_itemsTail tl rest)
    have ih2 := readItemsTail_write tl f rest (by omega)
    rw [writeItemsTail, List.cons_append, List.append_assoc, readItemsTail_succ,
      if_neg (by decide), if_pos rfl, ih1]
    show (readItemsTail f (writeItemsTail tl ++ rest)).map (fun r => (v :: r.1, r.2)) = _
    rw [ih2]
    rfl
theorem readFields_write : ∀ (fields : List (String × JSValue)) (fuel : Nat)
    (rest : List Char),
    needFields fields ≤ fuel →
      readFields fuel (writeFields fields ++ rest) = some (fields, rest)
  | [], fuel, rest, hf => by
    obtain ⟨f, rfl⟩ : ∃ f, fuel = f + 1 := ⟨fuel - 1, by rw [needFields] at hf; omega⟩
    rw [writeFields]
    show readFields (f + 1) (rbrace :: rest) = _
    rw [readFields_succ, if_pos rfl]
  | (k, v) :: tl, fuel, rest, hf => by
    rw [needFields] at hf
    obtain ⟨f, rfl⟩ : ∃ f, fuel = f + 2 := ⟨fuel - 2, by omega⟩
    have ih1 := read_write v f (writeFieldsTail tl ++ rest) (by omega)
      (noDigitHead_fieldsTail tl rest)
    have ih2 := readFieldsTail_write tl (f + 1) rest (by omega)
    have hfield := readField_write f k v (writeFieldsTail tl ++ rest) ih1
    have hq : writeFields ((k, v) :: tl) ++ rest =
        dquote :: (quoteChars k.data ++ colon :: (write v ++ (writeFieldsTail tl ++ rest))) := by
      rw [writeFields]
      simp [quote, List.append_assoc]
    rw [hq, readFields_succ, if_neg (by decide)]
    have hfield2 : readField (f + 1)
        (dquote :: (quoteChars k.data ++ colon :: (write v ++ (writeFieldsTail tl ++ rest)))) =
        some ((k, v), writeFieldsTail tl ++ rest) := hfield
    rw [hfield2]
    show (readFieldsTail (f + 1) (writeFieldsTail tl ++ rest)).map
      (fun r => ((k, v) :: r.1, r.2)) = _
    rw [ih2]
    rfl
theorem readFieldsTail_write : ∀ (fields : List (String × JSValue)) (fuel : Nat)
    (rest : List Char),
    needFields fields ≤ fuel →
      readFieldsTail fuel (writeFieldsTail fields ++ rest) = some (fields, rest)
  | [], fuel, rest, hf => by
    obtain ⟨f, rfl⟩ : ∃ f, fuel = f + 1 := ⟨fuel - 1, by rw [needFields] at hf; omega⟩
    rw [writeFieldsTail]
    show readFieldsTail (f + 1) (rbrace :: rest) = _
    rw [readFieldsTail_succ, if_pos rfl]
  | (k, v) :: tl, fuel, rest, hf => by
    rw [needFields] at hf
    obtain ⟨f, rfl⟩ : ∃ f, fuel = f + 2 := ⟨fuel - 2, by omega⟩
    have ih1 := read_write v f (writeFieldsTail tl ++ rest) (by omega)
      (noDigitHead_fieldsTail tl rest)
    have ih2 := readFieldsTail_write tl (f + 1) rest (by omega)
    have hfield := readField_write f k v (writeFieldsTail tl ++ rest) ih1
    have hq : writeFieldsTail ((k, v) :: tl) ++ rest =
        comma :: (quote k ++ colon :: (write v ++ (writeFieldsTail tl ++ rest))) := by
      rw [writeFieldsTail]
      simp [List.append_assoc]
    rw [hq, readFieldsTail_succ, if_neg (by decide), if_pos rfl, hfield]
    show (readFieldsTail (f + 1) (writeFieldsTail tl ++ rest)).map
      (fun r => ((k, v) :: r.1, r.2)) = _
    rw [ih2]
    rfl
end

mutual
theorem need_le : ∀ v : JSValue, need v ≤ 2 * (write v).length
  | .null => by decide
  | .bool true => by decide
  | .bool false => by decide
  | .number n => by
    obtain ⟨c, tl, heq, _⟩ := writeInt_head n
    rw [need, write, heq, List.length_cons]
    omega
  | .string s => by
    rw [need, write, quote, List.length_cons]
    omega
  | .array items => by
    have ih := needItems_le items
    rw [need, write, List.length_cons]
    omega
  | .object fields => by
    have ih := needFields_le fields
    rw [need, write, List.length_cons]
    omega
theorem needItems_le : ∀ items : List JSValue,
    needItems items ≤ 2 * (writeItems items).length
  | [] => by decide
  | v :: tl => by
    have ih1 := need_le v
    have ih2 := needItemsTail_le tl
    rw [needItems, writeItems, List.length_append]
    omega
theorem needItemsTail_le : ∀ items : List JSValue,
    needItems items + 1 ≤ 2 * (writeItemsTail items).length
  | [] => by decide
  | v :: tl => by
    have ih1 := need_le v
    have ih2 := needItemsTail_le tl
    rw [needItems, writeItemsTail, List.length_cons, List.length_append]
    omega
theorem needFields_le : ∀ fields : List (String × JSValue),
    needFields fields ≤ 2 * (writeFields fields).length
  | [] => by decide
  | (k, v) :: tl => by
    have ih1 := need_le v
    have ih2 := needFieldsTail_le tl
    rw [needFields, writeFields, List.length_append, List.length_cons, List.length_append]
    omega
theorem needFieldsTail_le : ∀ fields : List (String × JSValue),
    needFields fields + 1 ≤ 2 * (writeFieldsTail fields).length
  | [] => by decide
  | (k, v) :: tl => by
    have ih1 := need_le v
    have ih2 := needFieldsTail_le tl
    rw [needFields, writeFieldsTail, List.length_cons, List.length_append, List.length_cons,
      List.length_append]
    omega
end

/-- Reading back the text written for a value gives the value. -/
theorem parse_stringify (v : JSValue) : parse (stringify v) = .ok v := by
  have hlen : (stringify v).length = (write v).length := rfl
  have hdata : (stringify v).data = write v := rfl
  have h := read_write v (2 * (write v).length + 1) [] (by have := need_le v; omega) trivial
  rw [List.append_nil] at h
  unfold parse
  rw [hlen, hdata, h]

end JSONText

/-! ## The guard -/

theorem resolve_login :
    resolve "/login" =
      { path := "/login", name := some "login", meta := ⟨none⟩,
        matched := ["../views/Login.vue"] } := by
  decide

theorem beforeEach_login (authStore : AuthState) (current : RouteLocation) :
    beforeEach authStore (resolve "/login") current = .next := by
  rw [resolve_login]; rfl

theorem beforeEach_redirect (authStore : AuthState) (target current : RouteLocation)
    (hreq : target.meta.requiresAuth = some true) (hauth : isAuthenticated authStore = false) :
    beforeEach authStore target current = .redirect "/login" := by
  simp [beforeEach, hreq, hauth]

theorem beforeEach_next (authStore : AuthState) (target current : RouteLocation)
    (h : target.meta.requiresAuth ≠ some true ∨ isAuthenticated authStore = true) :
    beforeEach authStore target current = .next := by
  unfold beforeEach
  rcases h with h | h
  · have : target.meta.requiresAuth.getD false = false := by
      cases hr : target.meta.requiresAuth with
      | none => rfl
      | some b =>
        cases b with
        | false => rfl
        | true => exact absurd hr h
    simp [this]
  · simp [h]

theorem navigate_redirected (authStore : AuthState) (target current : RouteLocation)
    (fuel : Nat) (h : beforeEach authStore target current = .redirect "/login") :
    navigate authStore current (fuel + 2) target = some (resolve "/login", 1) := by
  simp [navigate, h, beforeEach_login]

theorem navigate_allowed (authStore : AuthState) (target current : RouteLocation)
    (fuel : Nat) (h : beforeEach authStore target current = .next) :
    navigate authStore current (fuel + 1) target = some (target, 0) := by
  simp [navigate, h]

/-- C1: for every target whose merged `meta` has `requiresAuth` true and every
store state that is not authenticated, the guard does not call `next()` on the
target: it answers `next('/login')`, and the navigation ends on the login route
after that one redirect. -/
theorem guard_redirects_unauthenticated (authStore : AuthState)
    (target current : RouteLocation)
    (hreq : target.meta.requiresAuth = some true)
    (hauth : isAuthenticated authStore = false) :
    beforeEach authStore target current = .redirect "/login" ∧
      beforeEach authStore target current ≠ .next ∧
      (resolve "/login").path = "/login" ∧
      ∀ fuel, navigate authStore current (fuel + 2) target = some (resolve "/login", 1) := by
  have h := beforeEach_redirect authStore target current hreq hauth
  refine ⟨h, ?_, ?_, fun fuel => navigate_redirected authStore target current fuel h⟩
  · rw [h]; exact fun h2 => GuardResult.noConfusion h2
  · rw [resolve_login]

theorem guard_redirects_unauthenticated_witness :
    (resolve "/products").meta.requiresAuth = some true ∧
      isAuthenticated ⟨JS.value JSValue.null, JS.value JSValue.null⟩ = false ∧
      beforeEach ⟨JS.value JSValue.null, JS.value JSValue.null⟩ (resolve "/products") START_LOCATION =
        .redirect "/login" :=
  ⟨by decide, by decide,
    (guard_redirects_unauthenticated ⟨JS.value JSValue.null, JS.value JSValue.null⟩ (resolve "/products") START_LOCATION
      (by decide) (by decide)).1⟩

/-- C2: the guard calls `next()` with no destination, so that the navigation
reaches the target itself, whenever the target does not mark `requiresAuth`
(absent or false) whatever the authentication status, and whenever the session is
authenticated; it redirects only when `requiresAuth` is set and the session is not
authenticated, and then only to `/login`. -/
theorem guard_allows_otherwise (authStore : AuthState) (target current : RouteLocation) :
    (target.meta.requiresAuth ≠ some true →
        beforeEach authStore target current = .next ∧
        ∀ fuel, navigate authStore current (fuel + 1) target = some (target, 0)) ∧
      (isAuthenticated authStore = true →
        beforeEach authStore target current = .next ∧
        ∀ fuel, navigate authStore current (fuel + 1) target = some (target, 0)) ∧
      (∀ path, beforeEach authStore target current = .redirect path →
        path = "/login" ∧ target.meta.requiresAuth = some true ∧
          isAuthenticated authStore = false) := by
  refine ⟨fun h => ?_, fun h => ?_, fun path h => ?_⟩
  · have hn := beforeEach_next authStore target current (Or.inl h)
    exact ⟨hn, fun fuel => navigate_allowed authStore target current fuel hn⟩
  · have hn := beforeEach_next authStore target current (Or.inr h)
    exact ⟨hn, fun fuel => navigate_allowed authStore target current fuel hn⟩
  · by_cases hreq : target.meta.requiresAuth = some true
    · cases hauth : isAuthenticated authStore with
      | false =>
        rw [beforeEach_redirect authStore target current hreq hauth] at h
        injection h with h
        exact ⟨h.symm, hreq, rfl⟩
      | true =>
        rw [beforeEach_next authStore target current (Or.inr hauth)] at h
        exact GuardResult.noConfusion h
    · rw [beforeEach_next authStore target current (Or.inl hreq)] at h
      exact GuardResult.noConfusion h

/-! ## The store -/

namespace Storage

theorem setItem_fits (quota : Nat) (s : Storage) (key value : String)
    (h : size (put s key value) ≤ quota) :
    setItem quota s key value = .ok (put s key value) := by
  unfold setItem
  rw [if_pos h]

theorem setItem_ok (quota : Nat) (s s2 : Storage) (key value : String)
    (h : setItem quota s key value = .ok s2) :
    s2 = put s key value ∧ size (put s key value) ≤ quota := by
  unfold setItem at h
  by_cases hq : size (put s key value) ≤ quota
  · rw [if_pos hq] at h
    injection h with h
    exact ⟨h.symm, hq⟩
  · rw [if_neg hq] at h
    exact Except.noConfusion h

end Storage

theorem logout_logout (page : Page) : logout (logout page) = logout page := by
  unfold logout
  simp only
  rw [Storage.removeItem_comm ((page.localStorage.removeItem "admin_token").removeItem
      "admin_user") "admin_token" "admin_user",
    Storage.removeItem_removeItem_self,
    Storage.removeItem_comm (page.localStorage.removeItem "admin_token") "admin_user"
      "admin_token",
    Storage.removeItem_removeItem_self, Storage.removeItem_comm]

theorem logout_clears_store_entries (page : Page) :
    (logout page).localStorage.getItem "admin_token" = none ∧
      (logout page).localStorage.getItem "admin_user" = none := by
  constructor
  · show Storage.getItem ((page.localStorage.removeItem "admin_token").removeItem
      "admin_user") "admin_token" = none
    rw [Storage.getItem_removeItem_ne _ _ _ (by decide)]
    exact Storage.getItem_removeItem_self _ _
  · exact Storage.getItem_removeItem_self _ _

/-- C5: from every page state `logout()` returns (it is total); afterwards the
in-memory token and admin are both `null`, `isAuthenticated` is false, and
`localStorage` has no entry under `admin_token` nor under `admin_user`; a second
`logout()` leaves the state the first one produced. -/
theorem logout_clears_session (page : Page) :
    (logout page).store.token = JS.value JSValue.null ∧
      (logout page).store.admin = JS.value JSValue.null ∧
      isAuthenticated (logout page).store = false ∧
      (logout page).localStorage.getItem "admin_token" = none ∧
      (logout page).localStorage.getItem "admin_user" = none ∧
      logout (logout page) = logout page := by
  exact ⟨rfl, rfl, rfl, (logout_clears_store_entries page).1,
    (logout_clears_store_entries page).2, logout_logout page⟩

/-! ### `login` path by path -/

theorem login_rejected (J : JSONCodec) (axios_post : Endpoint) (username password : String)
    (page : Page) (e : JSError)
    (h : axios_post (API_URL ++ "/auth/admin/login") username password = .error e) :
    login J axios_post username password page = loginFailed e page := by
  unfold login
  rw [h]

theorem login_no_body (J : JSONCodec) (axios_post : Endpoint) (username password : String)
    (page : Page)
    (h : axios_post (API_URL ++ "/auth/admin/login") username password = .ok JS.undefined ∨
      axios_post (API_URL ++ "/auth/admin/login") username password =
        .ok (JS.value JSValue.null)) :
    login J axios_post username password page = loginFailed TypeError_token page := by
  unfold login
  rcases h with h | h
  · rw [h]
  · rw [h]
    rfl

theorem login_body (J : JSONCodec) (axios_post : Endpoint) (username password : String)
    (page : Page) (data : JSValue)
    (hpost : axios_post (API_URL ++ "/auth/admin/login") username password =
      .ok (JS.value data))
    (hdata : data.isNull = false) :
    login J axios_post username password page =
      match page.localStorage.setItem page.quota "admin_token"
          (getProp data "token").toText with
      | .error error =>
        loginFailed error
          { page with store := { token := getProp data "token", admin := getProp data "admin" } }
      | .ok storage1 =>
        match storage1.setItem page.quota "admin_user"
            (J.stringifyText (getProp data "admin")) with
        | .error error =>
          loginFailed error
            { page with
              store := { token := getProp data "token", admin := getProp data "admin" }
              localStorage := storage1 }
        | .ok storage2 =>
          (.ok true,
            { page with
              store := { token := getProp data "token", admin := getProp data "admin" }
              localStorage := storage2 }) := by
  unfold login
  rw [hpost]
  simp only [hdata, Bool.false_eq_true, if_false]

theorem login_store (J : JSONCodec) (axios_post : Endpoint) (username password : String)
    (page : Page) (data : JSValue)
    (hpost : axios_post (API_URL ++ "/auth/admin/login") username password =
      .ok (JS.value data))
    (hdata : data.isNull = false) :
    (login J axios_post username password page).2.store =
      { token := getProp data "token", admin := getProp data "admin" } := by
  rw [login_body J axios_post username password page data hpost hdata]
  cases page.localStorage.setItem page.quota "admin_token" (getProp data "token").toText with
  | error e => rfl
  | ok storage1 =>
    simp only
    cases storage1.setItem page.quota "admin_user"
        (J.stringifyText (getProp data "admin")) with
    | error e => rfl
    | ok storage2 => rfl

theorem login_ok (J : JSONCodec) (axios_post : Endpoint) (username password : String)
    (page : Page) (data : JSValue)
    (hpost : axios_post (API_URL ++ "/auth/admin/login") username password =
      .ok (JS.value data))
    (hdata : data.isNull = false)
    (hfit1 : Storage.size
      (page.localStorage.put "admin_token" (getProp data "token").toText) ≤ page.quota)
    (hfit2 : Storage.size
      ((page.localStorage.put "admin_token" (getProp data "token").toText).put "admin_user"
        (J.stringifyText (getProp data "admin"))) ≤ page.quota) :
    login J axios_post username password page =
      (.ok true,
        { page with
          store := { token := getProp data "token", admin := getProp data "admin" }
          localStorage :=
            (page.localStorage.put "admin_token" (getProp data "token").toText).put
              "admin_user" (J.stringifyText (getProp data "admin")) }) := by
  rw [login_body J axios_post username password page data hpost hdata,
    Storage.setItem_fits _ _ _ _ hfit1]
  simp only
  rw [Storage.setItem_fits _ _ _ _ hfit2]

theorem login_returned (J : JSONCodec) (axios_post : Endpoint) (username password : String)
    (page : Page) (b : Bool)
    (h : (login J axios_post username password page).1 = .ok b) :
    ∃ data, axios_post (API_URL ++ "/auth/admin/login") username password =
        .ok (JS.value data) ∧ data.isNull = false ∧
      Storage.size
        (page.localStorage.put "admin_token" (getProp data "token").toText) ≤ page.quota ∧
      Storage.size
        ((page.localStorage.put "admin_token" (getProp data "token").toText).put "admin_user"
          (J.stringifyText (getProp data "admin"))) ≤ page.quota := by
  cases hpost : axios_post (API_URL ++ "/auth/admin/login") username password with
  | error e =>
    rw [login_rejected J axios_post username password page e hpost] at h
    exact Except.noConfusion h
  | ok body =>
    cases body with
    | undefined =>
      rw [login_no_body J axios_post username password page (Or.inl hpost)] at h
      exact Except.noConfusion h
    | value data =>
      cases hdata : data.isNull with
      | true =>
        have hnull : data = JSValue.null := by
          cases data <;> first | rfl | exact Bool.noConfusion hdata
        rw [hnull] at hpost
        rw [login_no_body J axios_post username password page (Or.inr hpost)] at h
        exact Except.noConfusion h
      | false =>
        refine ⟨data, rfl, hdata, ?_⟩
        rw [login_body J axios_post username password page data hpost hdata] at h
        cases h1 : page.localStorage.setItem page.quota "admin_token"
            (getProp data "token").toText with
        | error e => rw [h1] at h; exact Except.noConfusion h
        | ok storage1 =>
          rw [h1] at h
          simp only at h
          obtain ⟨hs1, hq1⟩ := Storage.setItem_ok _ _ _ _ _ h1
          cases h2 : storage1.setItem page.quota "admin_user"
              (J.stringifyText (getProp data "admin")) with
          | error e => rw [h2] at h; exact Except.noConfusion h
          | ok storage2 =>
            obtain ⟨_, hq2⟩ := Storage.setItem_ok _ _ _ _ _ h2
            rw [hs1] at hq2
            exact ⟨hq1, hq2⟩

/-! ### `isAuthenticated` -/

theorem state_token (J : JSONCodec) (storage : Storage) (s : AuthState)
    (h : state J storage = .ok s) :
    s.token = JS.value JSValue.null ∨ ∃ t, t ≠ "" ∧ s.token = JS.value (JSValue.string t) := by
  unfold state at h
  cases hp : J.parseItem (storage.getItem "admin_user") with
  | error e => rw [hp] at h; exact Except.noConfusion h
  | ok admin =>
    rw [hp] at h
    injection h with h
    subst h
    show JS.value (tokenOrNull (storage.getItem "admin_token")) = _ ∨
      ∃ t, t ≠ "" ∧ JS.value (tokenOrNull (storage.getItem "admin_token")) = _
    cases storage.getItem "admin_token" with
    | none => exact Or.inl rfl
    | some t =>
      show JS.value (if t = "" then JSValue.null else JSValue.string t) = _ ∨
        ∃ t2, t2 ≠ "" ∧ JS.value (if t = "" then JSValue.null else JSValue.string t) = _
      by_cases ht : t = ""
      · rw [if_pos ht]; exact Or.inl rfl
      · rw [if_neg ht]; exact Or.inr ⟨t, ht, rfl⟩

theorem truthy_string (t : String) : (JSValue.string t).truthy = true ↔ t ≠ "" := by
  simp [JSValue.truthy]

theorem truthy_iff (x : JS) :
    x.truthy = true ↔
      x ≠ JS.undefined ∧ x ≠ JS.value JSValue.null ∧ x ≠ JS.value (JSValue.bool false) ∧
        x ≠ JS.value (JSValue.number 0) ∧ x ≠ JS.value (JSValue.string "") := by
  cases x with
  | undefined => simp [JS.truthy]
  | value v =>
    cases v with
    | null => simp [JS.truthy, JSValue.truthy]
    | bool b => cases b <;> simp [JS.truthy, JSValue.truthy]
    | number n => simp [JS.truthy, JSValue.truthy]
    | string t => simp [JS.truthy, JSValue.truthy]
    | array items => simp [JS.truthy, JSValue.truthy]
    | object fields => simp [JS.truthy, JSValue.truthy]

/-- C7 as stated fails: the state a login leaves when the endpoint answers with an
empty token has a token that is present (the empty string, not `null`), yet
`isAuthenticated` is false. -/
theorem isAuthenticated_false_with_token_present :
    ∃ page,
      login JSON.std
          (fun _ _ _ => .ok (JS.value (.object
            [("token", .string ""), ("admin", .object [("id", .number 7)])])))
          "admin" "secret"
          ⟨⟨JS.value JSValue.null, JS.value JSValue.null⟩, [], 5000000, []⟩ =
        (.ok true, page) ∧
      page.store.token = JS.value (JSValue.string "") ∧
      page.store.token.present = true ∧ isAuthenticated page.store = false :=
  ⟨_, rfl, rfl, rfl, rfl⟩

/-- C7 (amended): `isAuthenticated` is true exactly when the token is truthy, that
is none of `undefined`, `null`, `false`, `0` and the empty string; for a token that
is a string or `null`, exactly when it is neither `null` nor the empty string.  It
does not depend on the admin field.  In every state the state initialiser produces
the token is never the empty string, so there `isAuthenticated` is true exactly
when the token is not `null`. -/
theorem isAuthenticated_iff_token_nonempty (s : AuthState) :
    (isAuthenticated s = true ↔
        s.token ≠ JS.undefined ∧ s.token ≠ JS.value JSValue.null ∧
          s.token ≠ JS.value (JSValue.bool false) ∧ s.token ≠ JS.value (JSValue.number 0) ∧
          s.token ≠ JS.value (JSValue.string "")) ∧
      ((s.token = JS.value JSValue.null ∨ ∃ t, s.token = JS.value (JSValue.string t)) →
        (isAuthenticated s = true ↔
          s.token ≠ JS.value JSValue.null ∧ s.token ≠ JS.value (JSValue.string ""))) ∧
      (∀ admin, isAuthenticated { s with admin := admin } = isAuthenticated s) ∧
      (∀ J storage, state J storage = .ok s →
        s.token ≠ JS.value (JSValue.string "") ∧
          (isAuthenticated s = true ↔ s.token ≠ JS.value JSValue.null)) := by
  have key := truthy_iff s.token
  refine ⟨key, fun hdom => ?_, fun _ => rfl, fun J storage h => ?_⟩
  · show s.token.truthy = true ↔ _
    rw [key]
    constructor
    · exact fun h => ⟨h.2.1, h.2.2.2.2⟩
    · intro h
      rcases hdom with hn | ⟨t, ht⟩
      · exact absurd hn h.1
      · refine ⟨?_, h.1, ?_, ?_, h.2⟩ <;> rw [ht] <;> simp
  · show _ ∧ (s.token.truthy = true ↔ _)
    rcases state_token J storage s h with hn | ⟨t, ht, hs⟩
    · rw [hn]
      refine ⟨fun h2 => ?_, ?_⟩
      · injection h2 with h2; exact JSValue.noConfusion h2
      · simp [JS.truthy, JSValue.truthy]
    · rw [hs]
      refine ⟨fun h2 => ?_, ?_⟩
      · injection h2 with h2
        injection h2 with h2
        exact ht h2
      · have : (JS.value (JSValue.string t)).truthy = true := (truthy_string t).2 ht
        rw [this]
        simp

/-! ### A login that returns -/

/-- C3 as stated fails: the endpoint answers successfully with an empty token,
`login` returns true, and `isAuthenticated` is false afterwards; and when it
answers with the token `null`, `login` returns true, `isAuthenticated` is false and
`admin_token` holds the text `null`. -/
theorem login_empty_token_not_authenticated :
    ((login JSON.std
          (fun _ _ _ => .ok (JS.value (.object
            [("token", .string ""), ("admin", .object [("id", .number 1)])])))
          "admin" "secret"
          ⟨⟨JS.value JSValue.null, JS.value JSValue.null⟩, [], 5000000, []⟩).1 = .ok true ∧
      isAuthenticated
        (login JSON.std
          (fun _ _ _ => .ok (JS.value (.object
            [("token", .string ""), ("admin", .object [("id", .number 1)])])))
          "admin" "secret"
          ⟨⟨JS.value JSValue.null, JS.value JSValue.null⟩, [], 5000000, []⟩).2.store = false) ∧
    ((login JSON.std
          (fun _ _ _ => .ok (JS.value (.object
            [("token", .null), ("admin", .object [("id", .number 1)])])))
          "admin" "secret"
          ⟨⟨JS.value JSValue.null, JS.value JSValue.null⟩, [], 5000000, []⟩).1 = .ok true ∧
      isAuthenticated
        (login JSON.std
          (fun _ _ _ => .ok (JS.value (.object
            [("token", .null), ("admin", .object [("id", .number 1)])])))
          "admin" "secret"
          ⟨⟨JS.value JSValue.null, JS.value JSValue.null⟩, [], 5000000, []⟩).2.store = false ∧
      (login JSON.std
          (fun _ _ _ => .ok (JS.value (.object
            [("token", .null), ("admin", .object [("id", .number 1)])])))
          "admin" "secret"
          ⟨⟨JS.value JSValue.null, JS.value JSValue.null⟩, [], 5000000,
            []⟩).2.localStorage.getItem "admin_token" = some "null") :=
  ⟨⟨rfl, rfl⟩, ⟨rfl, rfl, by decide⟩⟩

/-- C3 (amended): for every prior page state and every successful response whose
body is not `null`, `login` returns whenever both storage writes fit the quota, and
after it returns: it returned true, the in-memory token and admin are the `token`
and `admin` properties of the body (`undefined` when missing), `localStorage`
holds under `admin_token` the token converted to a string (the token itself when
it is a string) and under `admin_user` the JSON text of the admin (the text
`undefined` when the admin is missing), and `isAuthenticated` is true exactly when
the token is truthy (for a string token: when it is not the empty string). -/
theorem login_success (J : JSONCodec) (axios_post : Endpoint) (username password : String)
    (page : Page) (data : JSValue)
    (hpost : axios_post (API_URL ++ "/auth/admin/login") username password =
      .ok (JS.value data))
    (hdata : data.isNull = false) :
    (∀ b, (login J axios_post username password page).1 = .ok b →
        b = true ∧
        (login J axios_post username password page).2.store.token = getProp data "token" ∧
        (login J axios_post username password page).2.store.admin = getProp data "admin" ∧
        (login J axios_post username password page).2.localStorage.getItem "admin_token" =
          some (getProp data "token").toText ∧
        (login J axios_post username password page).2.localStorage.getItem "admin_user" =
          some (J.stringifyText (getProp data "admin")) ∧
        isAuthenticated (login J axios_post username password page).2.store =
          (getProp data "token").truthy) ∧
      (∀ t, getProp data "token" = JS.value (JSValue.string t) →
        (getProp data "token").toText = t ∧
          ((getProp data "token").truthy = true ↔ t ≠ "")) ∧
      (∀ a, getProp data "admin" = JS.value a →
        J.stringifyText (getProp data "admin") = J.stringify a) ∧
      (Storage.size
          (page.localStorage.put "admin_token" (getProp data "token").toText) ≤ page.quota →
        Storage.size
          ((page.localStorage.put "admin_token" (getProp data "token").toText).put
            "admin_user" (J.stringifyText (getProp data "admin"))) ≤ page.quota →
        (login J axios_post username password page).1 = .ok true) := by
  refine ⟨fun b hb => ?_, fun t ht => ?_, fun a ha => ?_, fun h1 h2 => ?_⟩
  · obtain ⟨data2, hpost2, _, hfit1, hfit2⟩ :=
      login_returned J axios_post username password page b hb
    have hd : data2 = data := by
      rw [hpost] at hpost2
      injection hpost2 with h
      injection h with h
      exact h.symm
    subst hd
    rw [login_ok J axios_post username password page data2 hpost hdata hfit1 hfit2] at hb ⊢
    refine ⟨?_, rfl, rfl, ?_, ?_, rfl⟩
    · injection hb with hb
      exact hb.symm
    · show Storage.getItem ((page.localStorage.put "admin_token"
        (getProp data2 "token").toText).put "admin_user"
          (J.stringifyText (getProp data2 "admin"))) "admin_token" = _
      rw [Storage.getItem_put_ne _ _ _ _ (by decide)]
      exact Storage.getItem_put_self _ _ _
    · exact Storage.getItem_put_self _ _ _
  · rw [ht]
    exact ⟨rfl, truthy_string t⟩
  · rw [ha]
    rfl
  · rw [login_ok J axios_post username password page data hpost hdata h1 h2]

theorem login_success_witness :
    (login JSON.std
        (fun _ _ _ => .ok (JS.value (.object
          [("token", .string "abc"), ("admin", .object [("id", .number 1)])])))
        "admin" "secret"
        ⟨⟨JS.value JSValue.null, JS.value JSValue.null⟩, [], 5000000,
          []⟩).2.localStorage.getItem "admin_user" =
      some (JSON.std.stringifyText (JS.value (.object [("id", .number 1)]))) :=
  ((login_success JSON.std
    (fun _ _ _ => .ok (JS.value (.object
      [("token", .string "abc"), ("admin", .object [("id", .number 1)])])))
    "admin" "secret" ⟨⟨JS.value JSValue.null, JS.value JSValue.null⟩, [], 5000000, []⟩
    (.object [("token", .string "abc"), ("admin", .object [("id", .number 1)])])
    rfl rfl).1 true rfl).2.2.2.2.1

/-! ### A login that fails -/

theorem login_error_logged (J : JSONCodec) (axios_post : Endpoint)
    (username password : String) (page : Page) (e : JSError)
    (h : (login J axios_post username password page).1 = .error e) :
    (login J axios_post username password page).2.console =
      page.console ++ [("Login failed:", e)] := by
  have hinj : ∀ e1 : JSError, (Except.error e1 : Except JSError Bool) = .error e → e1 = e :=
    fun e1 h1 => by injection h1
  cases hpost : axios_post (API_URL ++ "/auth/admin/login") username password with
  | error e1 =>
    rw [login_rejected J axios_post username password page e1 hpost] at h ⊢
    rw [← hinj e1 h]; rfl
  | ok body =>
    cases body with
    | undefined =>
      rw [login_no_body J axios_post username password page (Or.inl hpost)] at h ⊢
      rw [← hinj _ h]; rfl
    | value data =>
      cases hdata : data.isNull with
      | true =>
        have hnull : data = JSValue.null := by
          cases data <;> first | rfl | exact Bool.noConfusion hdata
        rw [hnull] at hpost
        rw [login_no_body J axios_post username password page (Or.inr hpost)] at h ⊢
        rw [← hinj _ h]; rfl
      | false =>
        rw [login_body J axios_post username password page data hpost hdata] at h ⊢
        cases h1 : page.localStorage.setItem page.quota "admin_token"
            (getProp data "token").toText with
        | error e1 =>
          rw [h1] at h
          rw [← hinj e1 h]; rfl
        | ok storage1 =>
          rw [h1] at h
          simp only at h ⊢
          cases h2 : storage1.setItem page.quota "admin_user"
              (J.stringifyText (getProp data "admin")) with
          | error e1 =>
            rw [h2] at h
            rw [← hinj e1 h]; rfl
          | ok storage2 =>
            rw [h2] at h
            exact Except.noConfusion h

/-- C4 as stated fails: with a storage that has no room left, a successful response
makes `login` fail with the `QuotaExceededError` of `setItem` after the token and
the admin have been assigned: the session was not authenticated before the call
and is authenticated after it. -/
theorem login_fails_after_assignment :
    (login JSON.std
        (fun _ _ _ => .ok (JS.value (.object
          [("token", .string "abc"), ("admin", .object [("id", .number 1)])])))
        "admin" "secret"
        ⟨⟨JS.value JSValue.null, JS.value JSValue.null⟩, [], 0, []⟩).1 =
      .error ⟨"QuotaExceededError", "The quota has been exceeded."⟩ ∧
    isAuthenticated ⟨JS.value JSValue.null, JS.value JSValue.null⟩ = false ∧
    isAuthenticated
      (login JSON.std
        (fun _ _ _ => .ok (JS.value (.object
          [("token", .string "abc"), ("admin", .object [("id", .number 1)])])))
        "admin" "secret"
        ⟨⟨JS.value JSValue.null, JS.value JSValue.null⟩, [], 0, []⟩).2.store = true ∧
    (login JSON.std
        (fun _ _ _ => .ok (JS.value (.object
          [("token", .string "abc"), ("admin", .object [("id", .number 1)])])))
        "admin" "secret"
        ⟨⟨JS.value JSValue.null, JS.value JSValue.null⟩, [], 0, []⟩).2.store.token =
      JS.value (JSValue.string "abc") :=
  ⟨rfl, rfl, rfl, rfl⟩

/-- C4 (amended): a login that fails before anything is assigned leaves the prior
authentication state unchanged.  For every prior page state, if the authentication
request is rejected with an error, or the response has no body or the body `null`
(the read of `response.data.token` then throws a `TypeError`), `login` fails with
that same error after logging it, and the in-memory token, the in-memory admin,
the whole of `localStorage` and in particular its `admin_token` and `admin_user`
entries are what they were before the call; the console holds one more line, the
logged error. -/
theorem login_failure_leaves_state (J : JSONCodec) (axios_post : Endpoint)
    (username password : String) (page : Page) (e : JSError)
    (h : axios_post (API_URL ++ "/auth/admin/login") username password = .error e ∨
      (e = TypeError_token ∧
        (axios_post (API_URL ++ "/auth/admin/login") username password = .ok JS.undefined ∨
          axios_post (API_URL ++ "/auth/admin/login") username password =
            .ok (JS.value JSValue.null)))) :
    (login J axios_post username password page).1 = .error e ∧
      (login J axios_post username password page).2.store = page.store ∧
      (login J axios_post username password page).2.localStorage = page.localStorage ∧
      (login J axios_post username password page).2.localStorage.getItem "admin_token" =
        page.localStorage.getItem "admin_token" ∧
      (login J axios_post username password page).2.localStorage.getItem "admin_user" =
        page.localStorage.getItem "admin_user" ∧
      (∀ e2, (login J axios_post username password page).1 = .error e2 →
        (login J axios_post username password page).2.console =
          page.console ++ [("Login failed:", e2)]) := by
  have hfail : login J axios_post username password page = loginFailed e page := by
    rcases h with h | ⟨he, h⟩
    · exact login_rejected J axios_post username password page e h
    · rw [he]
      exact login_no_body J axios_post username password page h
  refine ⟨?_, ?_, ?_, ?_, ?_,
    fun e2 h2 => login_error_logged J axios_post username password page e2 h2⟩ <;>
  rw [hfail] <;> rfl

theorem login_failure_leaves_state_witness :
    (login JSON.std (fun _ _ _ => .error ⟨"AxiosError", "Request failed with status code 401"⟩)
        "admin" "wrong"
        ⟨⟨JS.value (.string "abc"), JS.value (.object [("id", .number 1)])⟩,
          [("admin_token", "abc"), ("admin_user", "\x7b\"id\":1\x7d")], 5000000,
          []⟩).2.store =
      ⟨JS.value (.string "abc"), JS.value (.object [("id", .number 1)])⟩ :=
  (login_failure_leaves_state JSON.std
    (fun _ _ _ => .error ⟨"AxiosError", "Request failed with status code 401"⟩)
    "admin" "wrong"
    ⟨⟨JS.value (.string "abc"), JS.value (.object [("id", .number 1)])⟩,
      [("admin_token", "abc"), ("admin_user", "\x7b\"id\":1\x7d")], 5000000, []⟩
    ⟨"AxiosError", "Request failed with status code 401"⟩ (Or.inl rfl)).2.1

/-! ## The session invariant -/

theorem isNull_orNull (v : JSValue) : v.orNull.isNull = !v.truthy := by
  cases v with
  | null => rfl
  | bool b => cases b <;> rfl
  | number n =>
    unfold JSValue.orNull
    by_cases h : (JSValue.number n).truthy = true
    · rw [if_pos h, h]; rfl
    · rw [if_neg h]
      have h2 : (JSValue.number n).truthy = false := by
        cases hb : (JSValue.number n).truthy with
        | false => rfl
        | true => exact absurd hb h
      rw [h2]; rfl
  | string t =>
    unfold JSValue.orNull
    by_cases h : (JSValue.string t).truthy = true
    · rw [if_pos h, h]; rfl
    · rw [if_neg h]
      have h2 : (JSValue.string t).truthy = false := by
        cases hb : (JSValue.string t).truthy with
        | false => rfl
        | true => exact absurd hb h
      rw [h2]; rfl
  | array items => rfl
  | object fields => rfl

theorem login_store_unchanged_or_assigned (J : JSONCodec) (outcome : Except JSError JS)
    (username password : String) (page : Page) :
    (login J (fun _ _ _ => outcome) username password page).2.store = page.store ∨
      ∃ data, outcome = .ok (JS.value data) ∧ data.isNull = false ∧
        (login J (fun _ _ _ => outcome) username password page).2.store =
          { token := getProp data "token", admin := getProp data "admin" } := by
  cases outcome with
  | error e =>
    exact Or.inl (by rw [login_rejected J _ username password page e rfl]; rfl)
  | ok body =>
    cases body with
    | undefined =>
      exact Or.inl (by rw [login_no_body J _ username password page (Or.inl rfl)]; rfl)
    | value data =>
      cases hdata : data.isNull with
      | true =>
        have hnull : data = JSValue.null := by
          cases data <;> first | rfl | exact Bool.noConfusion hdata
        subst hnull
        exact Or.inl (by rw [login_no_body J _ username password page (Or.inr rfl)]; rfl)
      | false =>
        exact Or.inr ⟨data, rfl, hdata,
          login_store J (fun _ _ _ => .ok (JS.value data)) username password page data rfl
            hdata⟩

theorem bothOrNeither_run (J : JSONCodec) (page : Page) (a : Action)
    (hinv : bothOrNeither page.store)
    (ha : ∀ u p data, a = Action.login u p (.ok (JS.value data)) → data.isNull = false →
      (getProp data "token").present = (getProp data "admin").present) :
    bothOrNeither (Action.run J page a).store := by
  cases a with
  | logout => rfl
  | login u p outcome =>
    show bothOrNeither (login J (fun _ _ _ => outcome) u p page).2.store
    rcases login_store_unchanged_or_assigned J outcome u p page with h | ⟨data, ho, hd, h⟩
    · rw [h]; exact hinv
    · rw [h]
      exact ha u p data (by rw [ho]) hd

theorem bothOrNeither_runActions (J : JSONCodec) (actions : List Action) (page : Page)
    (hinv : bothOrNeither page.store)
    (ha : ∀ u p data, Action.login u p (.ok (JS.value data)) ∈ actions →
      data.isNull = false →
      (getProp data "token").present = (getProp data "admin").present) :
    bothOrNeither (runActions J page actions).store := by
  induction actions generalizing page with
  | nil => exact hinv
  | cons a rest ih =>
    show bothOrNeither (runActions J (Action.run J page a) rest).store
    apply ih
    · exact bothOrNeither_run J page a hinv
        (fun u p data h => ha u p data (h ▸ List.mem_cons_self _ _))
    · exact fun u p data h => ha u p data (List.mem_cons_of_mem _ h)

/-- C6 as stated fails: the initial state computed from a storage that holds only
`admin_token` has a token and no admin; from empty storage a successful login
whose response carries a `null` admin leaves a token and no admin; and one whose
response carries a `null` token leaves an admin and no token. -/
theorem session_invariant_broken :
    (∃ s, state JSON.std [("admin_token", "abc")] = .ok s ∧ ¬ bothOrNeither s) ∧
      (∃ s, state JSON.std [] = .ok s ∧
        ¬ bothOrNeither
          (runActions JSON.std ⟨s, [], 5000000, []⟩
            [Action.login "admin" "secret"
              (.ok (JS.value (.object [("token", .string "abc"), ("admin", .null)])))]).store) ∧
      (∃ s, state JSON.std [] = .ok s ∧
        ¬ bothOrNeither
          (runActions JSON.std ⟨s, [], 5000000, []⟩
            [Action.login "admin" "secret"
              (.ok (JS.value (.object
                [("token", .null), ("admin", .object [("id", .number 1)])])))]).store) :=
  ⟨⟨_, rfl, by decide⟩, ⟨_, rfl, by decide⟩, ⟨_, rfl, by decide⟩⟩

/-- C6 (amended): when the `admin_user` entry of durable storage is absent or
valid JSON text, and denotes a truthy value exactly when the `admin_token` entry
holds a non-empty string, the store initialises, and in the initial state and in
every state reached from it by any sequence of logout and login the token and the
admin are both present or both absent, provided every response body that is not
`null` carries a token and an admin that are both present (neither `null` nor
missing) or both absent.  This covers the login whose request is rejected, the one
whose body is `null` and the one that fails at a storage write. -/
theorem session_invariant (J : JSONCodec) (storage : Storage) (quota : Nat) (v : JSValue)
    (hparse : J.parseItem (storage.getItem "admin_user") = .ok v)
    (hboth : (!(tokenOrNull (storage.getItem "admin_token")).isNull) = v.truthy) :
    ∃ s0, state J storage = .ok s0 ∧ bothOrNeither s0 ∧
      ∀ actions : List Action,
        (∀ u p data, Action.login u p (.ok (JS.value data)) ∈ actions →
          data.isNull = false →
          (getProp data "token").present = (getProp data "admin").present) →
        bothOrNeither (runActions J ⟨s0, storage, quota, []⟩ actions).store := by
  have h0 : bothOrNeither
      ({ token := JS.value (tokenOrNull (storage.getItem "admin_token")),
         admin := JS.value v.orNull } : AuthState) := by
    show (!(tokenOrNull (storage.getItem "admin_token")).isNull) = !v.orNull.isNull
    rw [isNull_orNull, hboth, Bool.not_not]
  refine ⟨⟨JS.value (tokenOrNull (storage.getItem "admin_token")), JS.value v.orNull⟩,
    ?_, h0, fun actions ha => bothOrNeither_runActions J actions _ h0 ha⟩
  unfold state
  rw [hparse]

theorem session_invariant_witness :
    ∃ s0, state JSON.std [] = .ok s0 ∧ bothOrNeither s0 ∧
      bothOrNeither
        (runActions JSON.std ⟨s0, [], 20, []⟩
          [Action.login "admin" "secret"
              (.ok (JS.value (.object
                [("token", .string "abc"), ("admin", .object [("id", .number 1)])]))),
            Action.login "admin" "wrong" (.error ⟨"AxiosError", "Network Error"⟩),
            Action.logout]).store :=
  match session_invariant JSON.std [] 20 JSValue.null rfl rfl with
  | ⟨s0, h0, hinv, hall⟩ =>
    ⟨s0, h0, hinv, hall _ (by
      intro u p data h _
      simp only [List.mem_cons, List.mem_singleton, Action.login.injEq, List.mem_nil_iff,
        or_false] at h
      rcases h with ⟨_, _, h⟩ | ⟨_, _, h⟩ | h
      · injection h with h
        injection h with h
        subst h
        rfl
      · exact Except.noConfusion h
      · exact Action.noConfusion h)⟩

/-! ## The route table -/

theorem matchers_protected :
    ∀ l ∈ router_matchers, l.name ≠ some "login" → l.meta.requiresAuth = some true := by
  decide

theorem resolveName_protected :
    ∀ n ∈ protectedNames,
      (resolveName n).map (fun l => (l.name, l.meta.requiresAuth)) =
        some (some n, some true) := by
  decide

theorem beforeEach_cases (authStore : AuthState) (target current : RouteLocation) :
    beforeEach authStore target current = .next ∨
      beforeEach authStore target current = .redirect "/login" := by
  unfold beforeEach
  by_cases h : (target.meta.requiresAuth.getD false && !isAuthenticated authStore) = true
  · rw [if_pos h]; exact Or.inr rfl
  · rw [if_neg h]; exact Or.inl rfl

/-- C9: every matcher of the route table other than `login` has merged
`requiresAuth` true (the children inherit it from the `/` record), so each of the
named routes home, dashboard, products, orders, chat and notifications resolves to
a location from which an unauthenticated session is redirected to `/login`; the
`login` route has no `requiresAuth`, the guard always lets a navigation to
`/login` through, and no navigation takes more than one redirect. -/
theorem routes_protected_except_login :
    (∀ l ∈ router_matchers, l.name ≠ some "login" →
        l.meta.requiresAuth = some true ∧
        ∀ authStore current, isAuthenticated authStore = false →
          beforeEach authStore l current = .redirect "/login") ∧
      (∀ n ∈ protectedNames, ∃ l, resolveName n = some l ∧ l.name = some n ∧
        l.meta.requiresAuth = some true ∧
        ∀ authStore current, isAuthenticated authStore = false →
          beforeEach authStore l current = .redirect "/login" ∧
          ∀ fuel, navigate authStore current (fuel + 2) l = some (resolve "/login", 1)) ∧
      (resolve "/login").name = some "login" ∧
      (resolve "/login").meta.requiresAuth = none ∧
      (∀ authStore current, beforeEach authStore (resolve "/login") current = .next) ∧
      (∀ authStore current target fuel, ∃ l n,
        navigate authStore current (fuel + 2) target = some (l, n) ∧ n ≤ 1) := by
  refine ⟨fun l hl hname => ?_, ?_, by decide, by decide, beforeEach_login, ?_⟩
  · have hreq := matchers_protected l hl hname
    exact ⟨hreq, fun authStore current hauth =>
      beforeEach_redirect authStore l current hreq hauth⟩
  · intro n hn
    have h := resolveName_protected n hn
    cases hl : resolveName n with
    | none => rw [hl] at h; exact Option.noConfusion h
    | some l =>
      rw [hl] at h
      have h2 : (l.name, l.meta.requiresAuth) = (some n, some true) := Option.some.inj h
      have hname : l.name = some n := congrArg Prod.fst h2
      have hreq : l.meta.requiresAuth = some true := congrArg Prod.snd h2
      refine ⟨l, rfl, hname, hreq, fun authStore current hauth => ?_⟩
      have hr := beforeEach_redirect authStore l current hreq hauth
      exact ⟨hr, fun fuel => navigate_redirected authStore l current fuel hr⟩
  · intro authStore current target fuel
    rcases beforeEach_cases authStore target current with h | h
    · exact ⟨target, 0, navigate_allowed authStore target current (fuel + 1) h, Nat.zero_le 1⟩
    · exact ⟨resolve "/login", 1, navigate_redirected authStore target current fuel h,
        Nat.le_refl 1⟩

/-! ## The scenario and the persistence round trip -/

/-- C8 as stated fails: with no `admin_token` entry but an `admin_user` entry that
is not JSON text, the state initialiser throws the `SyntaxError` of `JSON.parse`:
the store does not initialise, and the guard, which needs it, cannot redirect. -/
theorem scenario_store_fails_to_initialise :
    Storage.getItem [("admin_user", "not json")] "admin_token" = none ∧
      state JSON.std [("admin_user", "not json")] =
        .error ⟨"SyntaxError", "Unexpected token in JSON"⟩ :=
  ⟨rfl, rfl⟩

/-- C8 (amended): from durable storage with no `admin_token` entry whose
`admin_user` entry is absent or valid JSON text, the store initialises
unauthenticated and a navigation to `/` ends on `/login` after one redirect; then
`login("admin", "secret")`, with the endpoint answering `{token: "abc", admin:
{id: 1}}` and the two storage writes fitting the quota, succeeds, and after it a
navigation to `/` is let through by the guard and is on the route named
`dashboard`. -/
theorem scenario_login_then_dashboard (J : JSONCodec) (axios_post : Endpoint)
    (storage : Storage) (quota : Nat) (v : JSValue)
    (hnone : storage.getItem "admin_token" = none)
    (hparse : J.parseItem (storage.getItem "admin_user") = .ok v)
    (hpost : axios_post (API_URL ++ "/auth/admin/login") "admin" "secret" =
      .ok (JS.value (.object
        [("token", .string "abc"), ("admin", .object [("id", .number 1)])])))
    (hfit1 : Storage.size (storage.put "admin_token" "abc") ≤ quota)
    (hfit2 : Storage.size
      ((storage.put "admin_token" "abc").put "admin_user"
        (J.stringify (.object [("id", .number 1)]))) ≤ quota) :
    ∃ s0, state J storage = .ok s0 ∧ isAuthenticated s0 = false ∧
      (∀ fuel, navigate s0 START_LOCATION (fuel + 2) (resolve "/") =
        some (resolve "/login", 1)) ∧
      (resolve "/login").path = "/login" ∧
      ∃ page, login J axios_post "admin" "secret" ⟨s0, storage, quota, []⟩ =
          (.ok true, page) ∧
        isAuthenticated page.store = true ∧
        beforeEach page.store (resolve "/") (resolve "/login") = .next ∧
        (∀ fuel, navigate page.store (resolve "/login") (fuel + 1) (resolve "/") =
          some (resolve "/", 0)) ∧
        (resolve "/").name = some "dashboard" := by
  have hs : state J storage =
      .ok { token := JS.value JSValue.null, admin := JS.value v.orNull } := by
    unfold state
    rw [hparse, hnone]
    rfl
  have hreq : (resolve "/").meta.requiresAuth = some true := by decide
  have hauth : ∀ admin : JS,
      isAuthenticated { token := JS.value (.string "abc"), admin := admin } = true :=
    fun _ => by
      show ("abc" != "") = true
      decide
  refine ⟨_, hs, rfl, fun fuel => ?_, by decide, _,
    login_ok J axios_post "admin" "secret" _ _ hpost rfl hfit1 hfit2, hauth _, ?_,
    fun fuel => ?_, by decide⟩
  · exact navigate_redirected _ _ _ fuel (beforeEach_redirect _ _ _ hreq rfl)
  · exact beforeEach_next _ _ _ (Or.inr (hauth _))
  · exact navigate_allowed _ _ _ fuel (beforeEach_next _ _ _ (Or.inr (hauth _)))

theorem scenario_login_then_dashboard_witness :
    ∃ s0, state JSON.std [] = .ok s0 ∧ isAuthenticated s0 = false ∧
      navigate s0 START_LOCATION 2 (resolve "/") = some (resolve "/login", 1) :=
  match scenario_login_then_dashboard JSON.std
      (fun _ _ _ => .ok (JS.value (.object
        [("token", .string "abc"), ("admin", .object [("id", .number 1)])])))
      [] 5000000 JSValue.null rfl rfl rfl (by decide) (by decide) with
  | ⟨s0, h0, hauth, hnav, _⟩ => ⟨s0, h0, hauth, hnav 0⟩

theorem getProp_value_not_null (data : JSValue) (key : String) (x : JSValue)
    (h : getProp data key = JS.value x) : data.isNull = false := by
  cases data with
  | null => exact JS.noConfusion h
  | bool b => rfl
  | number n => rfl
  | string s => rfl
  | array items => rfl
  | object fields => rfl

theorem state_after_login (J : JSONCodec) (axios_post : Endpoint)
    (username password : String) (page : Page) (data : JSValue) (t : String) (a : JSValue)
    (hpost : axios_post (API_URL ++ "/auth/admin/login") username password =
      .ok (JS.value data))
    (htoken : getProp data "token" = JS.value (JSValue.string t))
    (hadmin : getProp data "admin" = JS.value a)
    (ht : t ≠ "") (hobj : a.isObject = true)
    (hjson : J.parse (J.stringify a) = .ok a)
    (hlogin : (login J axios_post username password page).1 = .ok true) :
    state J (login J axios_post username password page).2.localStorage =
      .ok { token := JS.value (JSValue.string t), admin := JS.value a } := by
  have hdata := getProp_value_not_null data "token" _ htoken
  obtain ⟨data2, hpost2, _, hfit1, hfit2⟩ :=
    login_returned J axios_post username password page true hlogin
  have hd : data2 = data := by
    rw [hpost] at hpost2
    injection hpost2 with h
    injection h with h
    exact h.symm
  subst hd
  rw [login_ok J axios_post username password page data2 hpost hdata hfit1 hfit2]
  unfold state
  simp only
  rw [Storage.getItem_put_self, Storage.getItem_put_ne _ _ _ _ (by decide),
    Storage.getItem_put_self, htoken, hadmin]
  have ha : a.orNull = a := by
    cases a with
    | object fields => rfl
    | null => exact Bool.noConfusion hobj
    | bool b => exact Bool.noConfusion hobj
    | number n => exact Bool.noConfusion hobj
    | string s => exact Bool.noConfusion hobj
    | array items => exact Bool.noConfusion hobj
  show (match J.parse (J.stringify a) with
    | .ok admin =>
      Except.ok ({ token := JS.value (tokenOrNull (some t)),
                   admin := JS.value admin.orNull } : AuthState)
    | .error e => Except.error e) = _
  rw [hjson]
  show Except.ok ({ token := JS.value (if t = "" then JSValue.null else JSValue.string t),
                    admin := JS.value a.orNull } : AuthState) = _
  rw [if_neg ht, ha]

/-- C10: re-initialising the store from durable storage reproduces the session the
last mutation left.  After a successful login whose response carries a non-empty
string token `t` and a JSON object `a`, the state initialiser yields token `t` and
admin `a`: with any codec whose `parse` gives `a` back from its `stringify` text,
and with the concrete codec `JSON.std`, which does so for every value; such a
login succeeds whenever its two storage writes fit the quota.  After a logout the
state initialiser yields token `null` and admin `null`. -/
theorem persistence_round_trip (J : JSONCodec) (axios_post : Endpoint)
    (username password : String) (page : Page) (data : JSValue) (t : String) (a : JSValue)
    (hpost : axios_post (API_URL ++ "/auth/admin/login") username password =
      .ok (JS.value data))
    (htoken : getProp data "token" = JS.value (JSValue.string t))
    (hadmin : getProp data "admin" = JS.value a)
    (ht : t ≠ "") (hobj : a.isObject = true) :
    (J.parse (J.stringify a) = .ok a →
        (login J axios_post username password page).1 = .ok true →
        state J (login J axios_post username password page).2.localStorage =
          .ok { token := JS.value (JSValue.string t), admin := JS.value a }) ∧
      ((login JSON.std axios_post username password page).1 = .ok true →
        state JSON.std (login JSON.std axios_post username password page).2.localStorage =
          .ok { token := JS.value (JSValue.string t), admin := JS.value a }) ∧
      (Storage.size (page.localStorage.put "admin_token" t) ≤ page.quota →
        Storage.size ((page.localStorage.put "admin_token" t).put "admin_user"
          (J.stringify a)) ≤ page.quota →
        (login J axios_post username password page).1 = .ok true) ∧
      state J (logout page).localStorage =
        .ok { token := JS.value JSValue.null, admin := JS.value JSValue.null } := by
  refine ⟨fun hjson hlogin =>
      state_after_login J axios_post username password page data t a hpost htoken hadmin
        ht hobj hjson hlogin,
    fun hlogin =>
      state_after_login JSON.std axios_post username password page data t a hpost htoken
        hadmin ht hobj (JSONText.parse_stringify a) hlogin,
    fun hfit1 hfit2 => ?_, ?_⟩
  · have hdata := getProp_value_not_null data "token" _ htoken
    have h1 : Storage.size
        (page.localStorage.put "admin_token" (getProp data "token").toText) ≤ page.quota := by
      rw [htoken]; exact hfit1
    have h2 : Storage.size
        ((page.localStorage.put "admin_token" (getProp data "token").toText).put "admin_user"
          (J.stringifyText (getProp data "admin"))) ≤ page.quota := by
      rw [htoken, hadmin]; exact hfit2
    rw [login_ok J axios_post username password page data hpost hdata h1 h2]
  · have h1 := (logout_clears_store_entries page).1
    have h2 := (logout_clears_store_entries page).2
    unfold state
    rw [h1, h2]
    rfl

theorem persistence_round_trip_witness :
    state JSON.std
        (login JSON.std
          (fun _ _ _ => .ok (JS.value (.object
            [("token", .string "abc"), ("admin", .object [("id", .number 1)])])))
          "admin" "secret"
          ⟨⟨JS.value JSValue.null, JS.value JSValue.null⟩, [], 5000000, []⟩).2.localStorage =
      .ok { token := JS.value (.string "abc"),
            admin := JS.value (.object [("id", .number 1)]) } :=
  (persistence_round_trip JSON.std
    (fun _ _ _ => .ok (JS.value (.object
      [("token", .string "abc"), ("admin", .object [("id", .number 1)])])))
    "admin" "secret" ⟨⟨JS.value JSValue.null, JS.value JSValue.null⟩, [], 5000000, []⟩
    (.object [("token", .string "abc"), ("admin", .object [("id", .number 1)])])
    "abc" (.object [("id", .number 1)])
    rfl rfl rfl (by decide) rfl).2.1 rfl

end AdminWeb
